import Mathlib

/-!
Verification of the incremental semantic clustering engine of jiwo-quicknote.

The JavaScript sources are shallowly embedded as Lean definitions:

* `src/services/ai.js` — vector utilities (`cosineSimilarity`,
  `computeCentroid`, `findNearestCluster`);
* `src/services/incrementalClassifier.js` — the clustering engine
  (`classifyNote` join-or-create step, `splitCluster`,
  `checkAndMergeClusters`, `reclassifyAll`, `cleanupNoteClassification`);
* the data-storage layer — cluster / embedding / queue stores
  (`upsertCluster`, `removeNoteFromCluster`, `enqueueClassificationTask`, ...);
* `src/services/classificationTask.js` — the bulk batch task
  (`startClassificationTask`, `retryTask`, `createBatches`).

Modelling conventions:

* JavaScript numbers are modelled as real numbers `ℝ` (exact arithmetic);
  vectors are `List ℝ`.
* `localStorage` is modelled by explicit store values threaded through the
  functions; every external effect (the embedding / LLM HTTP calls) is an
  explicit oracle argument.
* Record fields that no claim mentions (timestamps `createdAt`, `updatedAt`,
  `startedAt`, `completedAt`, display `name`, `parentId`, `model`) are
  omitted from the embedded records.  Fresh random ids (`crypto.randomUUID`)
  are passed in as arguments.
* A JavaScript `null`/`undefined` vector argument is modelled as `Option`
  where a claim distinguishes it (`findNearestCluster`), and as the empty
  list elsewhere (the code treats both as "no signal").
-/

namespace Jiwo

/-- A note: only `id` and `content` are consulted by the classification code. -/
structure Note where
  id : String
  content : String
deriving DecidableEq

/-- Stored embedding of one note (`createNoteEmbedding` in schema.js,
metadata fields omitted). -/
structure NoteEmbedding where
  noteId : String
  embedding : List ℝ

/-- A cluster record (`createCluster` in schema.js): id, centroid vector and
member note ids.  `name`, `parentId` and the timestamps are omitted. -/
structure Cluster where
  id : String
  centroid : List ℝ
  noteIds : List String

/-- The slice of localStorage used by the incremental classifier:
the embedding store and the cluster store. -/
structure ClassifierStore where
  embeddings : List NoteEmbedding
  clusters : List Cluster

/-- Hard-coded similarity threshold of incrementalClassifier.js. -/
def SIMILARITY_THRESHOLD : ℝ := 0.7

/-- Hard-coded merge threshold of incrementalClassifier.js. -/
def MERGE_THRESHOLD : ℝ := 0.85

/-- Hard-coded maximal cluster size of incrementalClassifier.js. -/
def MAX_CLUSTER_SIZE : ℕ := 50

/-- Embedding of `cosineSimilarity` from ai.js: returns 0 on length mismatch
or empty input, computes dot product and the two norms, returns 0 if either
norm is 0, otherwise the normalised dot product.  A JavaScript `null`
argument behaves exactly like the empty list (both hit the first guard). -/
noncomputable def cosineSimilarity (a b : List ℝ) : ℝ :=
  if a.length ≠ b.length ∨ a.length = 0 then 0
  else
    let dotProduct := (List.zipWith (fun x y => x * y) a b).sum
    let normA := Real.sqrt ((a.map (fun x => x * x)).sum)
    let normB := Real.sqrt ((b.map (fun x => x * x)).sum)
    if normA = 0 ∨ normB = 0 then 0
    else dotProduct / (normA * normB)

/-- Embedding of `computeCentroid` from ai.js: component-wise mean of the
vectors, empty on empty input.  The dimension is taken from the first
vector, exactly as in the source (`vectors[0].length`); the code is only
ever applied to vectors of a common dimension. -/
noncomputable def computeCentroid (vectors : List (List ℝ)) : List ℝ :=
  match vectors with
  | [] => []
  | v :: _ =>
    (List.range v.length).map
      (fun i => (vectors.map (fun w => w.getD i 0)).sum / (vectors.length : ℝ))

/-- Result record of `findNearestCluster`. -/
structure NearestResult where
  cluster : Option Cluster
  similarity : ℝ
  index : Int

/-- Linear argmax scan used by both `findNearestCluster` and the merge /
split pair searches: walk the list keeping the best score seen so far,
updating only on a strict improvement (`>`), exactly like the JavaScript
loops.  The initial accumulator mirrors the sentinel initialisation of each
loop (`-1` / `0` together with `null`). -/
noncomputable def argmaxAux (score : α → ℝ) : List α → ℝ → Option α → ℝ × Option α
  | [], m, b => (m, b)
  | x :: xs, m, b =>
    if score x > m then argmaxAux score xs (score x) (some x)
    else argmaxAux score xs m b

/-- Embedding of `findNearestCluster` from ai.js.  The `embedding` argument
is an `Option` because the claim about this function distinguishes a missing
(`null`) embedding; an empty centroid models both a missing and an empty
centroid field (`!cluster.centroid || cluster.centroid.length === 0`). -/
noncomputable def findNearestCluster (embedding : Option (List ℝ))
    (clusters : List Cluster) : NearestResult :=
  if embedding.isNone ∨ clusters.isEmpty then ⟨none, 0, -1⟩
  else
    let emb := embedding.getD []
    let cands := clusters.enum.filter (fun p => !p.2.centroid.isEmpty)
    let r := argmaxAux (fun p => cosineSimilarity emb p.2.centroid) cands (-1) none
    match r.2 with
    | none => ⟨none, r.1, -1⟩
    | some p => ⟨some p.2, r.1, Int.ofNat p.1⟩

/-! Data-storage layer (storage.js): pure list manipulation of the stores. -/

/-- Embedding of `upsertEmbedding`: replace the entry with the same `noteId`
if one exists (`findIndex`), otherwise push. -/
def upsertEmbedding (e : NoteEmbedding) (store : ClassifierStore) : ClassifierStore :=
  match store.embeddings.findIdx? (fun x => x.noteId == e.noteId) with
  | some i => { store with embeddings := store.embeddings.set i e }
  | none => { store with embeddings := store.embeddings ++ [e] }

/-- Embedding of `deleteEmbeddingByNoteId`: drop every embedding whose
`noteId` matches. -/
def deleteEmbeddingByNoteId (noteId : String) (store : ClassifierStore) : ClassifierStore :=
  { store with embeddings := store.embeddings.filter (fun e => e.noteId != noteId) }

/-- Embedding of `upsertCluster`: replace the cluster with the same `id` if
one exists (`findIndex`), otherwise push. -/
def upsertCluster (c : Cluster) (store : ClassifierStore) : ClassifierStore :=
  match store.clusters.findIdx? (fun x => x.id == c.id) with
  | some i => { store with clusters := store.clusters.set i c }
  | none => { store with clusters := store.clusters ++ [c] }

/-- Embedding of `removeNoteFromCluster`: in every cluster whose `noteIds`
contains the id, splice out the first occurrence (`indexOf` + `splice`).
No cluster is ever deleted by this function, even if its `noteIds` becomes
empty. -/
def removeNoteFromCluster (noteId : String) (store : ClassifierStore) : ClassifierStore :=
  let upd := fun (c : Cluster) =>
    if c.noteIds.contains noteId then { c with noteIds := c.noteIds.erase noteId } else c
  { store with clusters := store.clusters.map upd }

/-- Embedding of `cleanupNoteClassification` from incrementalClassifier.js:
delete the embedding of the note, then remove the note from every cluster. -/
def cleanupNoteClassification (noteId : String) (store : ClassifierStore) : ClassifierStore :=
  removeNoteFromCluster noteId (deleteEmbeddingByNoteId noteId store)

/-! The incremental clustering engine (incrementalClassifier.js). -/

/-- Cluster access with the JavaScript out-of-range default; all uses are
in range. -/
def getC (clusters : List Cluster) (i : ℕ) : Cluster :=
  clusters.getD i ⟨"", [], []⟩

/-- Ordered index pairs `(i, j)` with `i < j < n`, in the enumeration order
of the two nested `for` loops of `checkAndMergeClusters`. -/
def pairIndices (n : ℕ) : List (ℕ × ℕ) :=
  (List.range n).flatMap
    (fun i => ((List.range n).filter (fun j => decide (i < j))).map (fun j => (i, j)))

/-- Ordered element pairs of a list, in the enumeration order of the two
nested `for` loops of `splitCluster`. -/
def pairsOf : List α → List (α × α)
  | [] => []
  | x :: xs => xs.map (fun y => (x, y)) ++ pairsOf xs

/-- The pair filter of the merge scan: both centroids must be non-empty
(`!clusters[i].centroid?.length` makes the loop skip the pair). -/
def validPair (clusters : List Cluster) (p : ℕ × ℕ) : Bool :=
  !(getC clusters p.1).centroid.isEmpty && !(getC clusters p.2).centroid.isEmpty

/-- Centroid similarity of an index pair of clusters. -/
noncomputable def pairSim (clusters : List Cluster) (p : ℕ × ℕ) : ℝ :=
  cosineSimilarity (getC clusters p.1).centroid (getC clusters p.2).centroid

/-- Embedding of `checkAndMergeClusters`: with at least two clusters, scan
all pairs (skipping pairs with an empty centroid) for the maximal centroid
similarity, strict improvement starting from `0` with sentinel indices
`(-1, -1)` (modelled `none`).  If the maximum reaches `MERGE_THRESHOLD`,
concatenate the noteIds of the second cluster onto the first, recompute the
centroid of the first from all stored embeddings of its members, and drop
the second cluster from the store. -/
noncomputable def checkAndMergeClusters (store : ClassifierStore) : ClassifierStore :=
  let clusters := store.clusters
  if clusters.length < 2 then store
  else
    let r := argmaxAux (pairSim clusters)
      ((pairIndices clusters.length).filter (validPair clusters)) 0 none
    if MERGE_THRESHOLD ≤ r.1 then
      match r.2 with
      | none => store
      | some p =>
        let clusterA := getC clusters p.1
        let clusterB := getC clusters p.2
        let merged := { clusterA with noteIds := clusterA.noteIds ++ clusterB.noteIds }
        let mergedEmbeddings :=
          (store.embeddings.filter (fun e => merged.noteIds.contains e.noteId)).map
            (fun e => e.embedding)
        let merged2 := { merged with centroid := computeCentroid mergedEmbeddings }
        { store with clusters :=
            (clusters.filter (fun c => c.id != clusterB.id)).set p.1 merged2 }
    else store

/-- The surviving cluster written by the merge branch of
`checkAndMergeClusters` for the chosen index pair `x`: the first cluster of
the pair with the concatenated noteIds and the centroid recomputed from the
stored embeddings of the concatenation. -/
noncomputable def mergedCluster (store : ClassifierStore) (x : ℕ × ℕ) : Cluster :=
  ⟨(getC store.clusters x.1).id,
   computeCentroid ((store.embeddings.filter
     (fun e => ((getC store.clusters x.1).noteIds ++
       (getC store.clusters x.2).noteIds).contains e.noteId)).map
     (fun e => e.embedding)),
   (getC store.clusters x.1).noteIds ++ (getC store.clusters x.2).noteIds⟩

/-- The embeddings of the members of a cluster, in embedding-store order
(`loadEmbeddings().filter(e => cluster.noteIds.includes(e.noteId))`). -/
def clusterEmbeddings (store : ClassifierStore) (cluster : Cluster) : List NoteEmbedding :=
  store.embeddings.filter (fun e => cluster.noteIds.contains e.noteId)

/-- Embedding of `splitCluster`: with fewer than four member embeddings the
function is a no-op.  Otherwise the pair of members at maximal distance
`1 - cosineSimilarity` is chosen as seeds (strict improvement from `0`,
sentinel `null` seeds modelled `none`; all-identical members therefore also
give a no-op), every member goes to seed 1 when at least as similar to it
as to seed 2 (`sim1 >= sim2`), otherwise to seed 2, and the two groups are
written back: the original cluster is updated in place (`upsertCluster`)
and the second group becomes a new cluster with the fresh id `newId`. -/
noncomputable def splitCluster (cluster : Cluster) (newId : String)
    (store : ClassifierStore) : ClassifierStore :=
  let ce := clusterEmbeddings store cluster
  if ce.length < 4 then store
  else
    let r := argmaxAux
      (fun q => 1 - cosineSimilarity q.1.embedding q.2.embedding) (pairsOf ce) 0 none
    match r.2 with
    | none => store
    | some seeds =>
      let group1 := ce.filter (fun e =>
        decide (cosineSimilarity e.embedding seeds.2.embedding ≤
                cosineSimilarity e.embedding seeds.1.embedding))
      let group2 := ce.filter (fun e =>
        decide (cosineSimilarity e.embedding seeds.1.embedding <
                cosineSimilarity e.embedding seeds.2.embedding))
      let c1 := { cluster with
        noteIds := group1.map (fun e => e.noteId),
        centroid := computeCentroid (group1.map (fun e => e.embedding)) }
      let c2 : Cluster :=
        ⟨newId, computeCentroid (group2.map (fun e => e.embedding)),
         group2.map (fun e => e.noteId)⟩
      upsertCluster c2 (upsertCluster c1 store)

/-- Embedding of the join-or-create body of `classifyNote` (the code after
the embedding has been generated): store the embedding of the note, then
either create the first cluster, join the nearest cluster when its
similarity reaches `SIMILARITY_THRESHOLD` (appending the note id and
recomputing the centroid from the stored embeddings of all members), or
create a new singleton cluster with the embedding itself as centroid.
`newId` models the fresh `crypto.randomUUID()` of `createCluster`.
The trailing `splitCluster` / `checkAndMergeClusters` calls of
`classifyNote` are modelled separately (they operate on the store this
function returns). -/
noncomputable def classifyNoteStep (noteId : String) (embedding : List ℝ)
    (newId : String) (store : ClassifierStore) : ClassifierStore :=
  let store1 := upsertEmbedding ⟨noteId, embedding⟩ store
  if store1.clusters.isEmpty then
    upsertCluster ⟨newId, embedding, [noteId]⟩ store1
  else
    let r := findNearestCluster (some embedding) store1.clusters
    if SIMILARITY_THRESHOLD ≤ r.similarity then
      match r.cluster with
      | none => store1
      | some nearest =>
        let joined := { nearest with noteIds := nearest.noteIds ++ [noteId] }
        let embs := (store1.embeddings.filter
          (fun e => joined.noteIds.contains e.noteId)).map (fun e => e.embedding)
        let joined2 := if 0 < embs.length
          then { joined with centroid := computeCentroid embs } else joined
        upsertCluster joined2 store1
    else
      upsertCluster ⟨newId, embedding, [noteId]⟩ store1

/-- Model of the JavaScript `String.prototype.trim`: strip leading and
trailing whitespace (implemented structurally so that it evaluates on
concrete strings). -/
def jsTrim (s : String) : String :=
  String.mk
    (((s.data.dropWhile Char.isWhitespace).reverse.dropWhile Char.isWhitespace).reverse)

/-- A note is valid for classification when its content is non-empty after
trimming (`n.content && n.content.trim().length > 0`; a JavaScript null
content is modelled as the empty string). -/
def validNote (n : Note) : Bool := jsTrim n.content != ""

/-- Result record of `reclassifyAll` (`{success, error}` or
`{success, stats}`; stats = total, completed, errors, clusters). -/
structure ReclassifyResult where
  success : Bool
  error : Option String
  stats : Option (ℕ × ℕ × ℕ × ℕ)

/-- Lookup in the embeddings map built by phase 2 of `reclassifyAll`. -/
def lookupEmbedding (embeddings : List NoteEmbedding) (id : String) : Option (List ℝ) :=
  (embeddings.find? (fun e => e.noteId == id)).map (fun e => e.embedding)

/-- One iteration of the phase-2 clustering loop of `reclassifyAll`:
the same join-or-create logic as `classifyNote`, except that member
embeddings are looked up in the snapshot map (in noteIds order). -/
noncomputable def reclassifyStep (embeddings : List NoteEmbedding)
    (newId : String) (note : Note) (clusters : List Cluster) : List Cluster :=
  match lookupEmbedding embeddings note.id with
  | none => clusters
  | some emb =>
    if clusters.isEmpty then clusters ++ [⟨newId, emb, [note.id]⟩]
    else
      let r := findNearestCluster (some emb) clusters
      if SIMILARITY_THRESHOLD ≤ r.similarity then
        match r.cluster with
        | none => clusters
        | some nearest =>
          let joined := { nearest with noteIds := nearest.noteIds ++ [note.id] }
          let embs := joined.noteIds.filterMap (lookupEmbedding embeddings)
          let joined2 := if 0 < embs.length
            then { joined with centroid := computeCentroid embs } else joined
          match clusters.findIdx? (fun x => x.id == joined2.id) with
          | some i => clusters.set i joined2
          | none => clusters ++ [joined2]
      else clusters ++ [⟨newId, emb, [note.id]⟩]

/-- Embedding of `reclassifyAll`: if no note has non-empty trimmed content,
return `{success: false, error}` without touching the store; otherwise
clear the cluster store, save the embeddings delivered by the batch
embedding oracle (`batchEmbs`, positionally aligned with the valid notes;
`none` models a failed item and counts as an error), replay join-or-create
over all valid notes in order, run one merge check, and report stats.
`newIds` supplies the fresh cluster ids, indexed by note position. -/
noncomputable def reclassifyAll (notes : List Note)
    (batchEmbs : List (Option (List ℝ))) (newIds : ℕ → String)
    (store : ClassifierStore) : ClassifierStore × ReclassifyResult :=
  let validNotes := notes.filter validNote
  if validNotes.length = 0 then
    (store, ⟨false, some "没有可分类的快记", none⟩)
  else
    let store1 := { store with clusters := [] }
    let store2 := validNotes.enum.foldl
      (fun st p => match batchEmbs.getD p.1 none with
        | some v => upsertEmbedding ⟨p.2.id, v⟩ st
        | none => st) store1
    let errors := (List.range validNotes.length).countP
      (fun k => (batchEmbs.getD k none).isNone)
    let clusters2 := validNotes.enum.foldl
      (fun cs p => reclassifyStep store2.embeddings (newIds p.1) p.2 cs)
      store2.clusters
    let store3 := checkAndMergeClusters { store2 with clusters := clusters2 }
    (store3,
     ⟨true, none,
      some (validNotes.length, validNotes.length - errors, errors,
            store3.clusters.length)⟩)

/-! The classification task queue (storage.js + incrementalClassifier.js). -/

/-- Task status of a queue entry. -/
inductive QStatus
  | pending
  | processing
  | done
  | errored
deriving DecidableEq

/-- A queue entry (`createClassificationTask`; error message and timestamps
omitted). -/
structure QTask where
  id : String
  noteId : String
  status : QStatus
deriving DecidableEq

/-- Embedding of `createClassificationTask` from schema.js: a fresh task in
status `pending`; the random uuid is passed in. -/
def createClassificationTask (freshId noteId : String) : QTask :=
  ⟨freshId, noteId, QStatus.pending⟩

/-- Embedding of `enqueueClassificationTask` from storage.js: a no-op when
a `pending` task with the same `noteId` is already queued, otherwise push. -/
def enqueueClassificationTask (task : QTask) (queue : List QTask) : List QTask :=
  match queue.find? (fun t => t.noteId == task.noteId &&
      decide (t.status = QStatus.pending)) with
  | some _ => queue
  | none => queue ++ [task]

/-- Embedding of `enqueueNote` from incrementalClassifier.js: create a task
for the note and enqueue it (the queue-processing trigger is outside this
model). -/
def enqueueNote (noteId freshId : String) (queue : List QTask) : List QTask :=
  enqueueClassificationTask (createClassificationTask freshId noteId) queue

/-- Number of pending queue entries for one note id. -/
def pendingCount (queue : List QTask) (noteId : String) : ℕ :=
  (queue.filter (fun t => t.noteId == noteId &&
      decide (t.status = QStatus.pending))).length

/-! The bulk batch classification task (classificationTask.js).

LocalStorage is modelled by a `TaskStore`; every `saveTaskState` of the
source appends the saved state to an explicit trace, so that invariants
about the persisted state can be stated over whole runs.  The LLM call of
`processBatch` is an oracle `process : ℕ → Except String β` from the batch
index to its result (deterministic per run); `β` abstracts the parsed batch
result array.  Timestamps are omitted, and the cooperative pause signal is
not modelled (no claim exercises it), so the `AbortController` check at the
top of each iteration never fires in this model. -/

/-- Status constants of `TASK_STATUS`. -/
inductive BStatus
  | idle
  | running
  | paused
  | completed
  | errored
deriving DecidableEq

/-- Persisted task state (`createInitialState`), minus the timestamps. -/
structure TaskState (β : Type) where
  status : BStatus
  totalNotes : ℕ
  processedNotes : ℕ
  currentBatch : ℕ
  totalBatches : ℕ
  batchResults : List (Option β)
  error : Option String
  retryCount : ℕ
deriving DecidableEq

/-- The two localStorage keys used by the task: the task state and the
batch result cache. -/
structure TaskStore (β : Type) where
  taskState : TaskState β
  batchCache : List (Option β)
deriving DecidableEq

/-- Embedding of `createInitialState`. -/
def createInitialState : TaskState β :=
  ⟨BStatus.idle, 0, 0, 0, 0, [], none, 0⟩

/-- CONFIG.BATCH_SIZE of classificationTask.js. -/
def CONFIG_BATCH_SIZE : ℕ := 30

/-- CONFIG.MAX_RETRIES of classificationTask.js. -/
def CONFIG_MAX_RETRIES : ℕ := 3

/-- Structural worker for `createBatches`; the fuel argument only bounds
the recursion depth (one chunk is produced per step, so the length of the
list is enough fuel). -/
def createBatchesAux : ℕ → List α → ℕ → List (List α)
  | 0, _, _ => []
  | _, [], _ => []
  | fuel + 1, x :: xs, size =>
    if size = 0 then []
    else (x :: xs).take size :: createBatchesAux fuel ((x :: xs).drop size) size

/-- Embedding of `createBatches`: slice the list into chunks of `size`.
The source loops `i += batchSize` with the constant 30, so `size = 0`
(which would not terminate in the source either) returns `[]` here. -/
def createBatches (notes : List α) (size : ℕ) : List (List α) :=
  createBatchesAux notes.length notes size

/-- The JavaScript sparse-array assignment `cachedResults[i] = r`: pad with
holes (`none`) up to index `i` if needed, then set. -/
def setCache (cache : List (Option β)) (i : ℕ) (r : β) : List (Option β) :=
  (cache ++ List.replicate (i + 1 - cache.length) none).set i (some r)

/-- The retry loop around `processBatch`: up to `CONFIG_MAX_RETRIES`
attempts, counting each failed attempt into `retryCount`; with the
deterministic oracle this is first-try success or three failures followed
by the rethrow.  Returns the result and the number of failures counted. -/
def batchRetryLoopAux (process : ℕ → Except String β) (i : ℕ) :
    ℕ → ℕ → Except String β × ℕ
  | 0, retries => (Except.error "", retries)
  | fuel + 1, retries =>
    match process i with
    | Except.ok r => (Except.ok r, retries)
    | Except.error e =>
      if CONFIG_MAX_RETRIES ≤ retries + 1 then (Except.error e, retries + 1)
      else batchRetryLoopAux process i fuel (retries + 1)

def batchRetryLoop (process : ℕ → Except String β) (i : ℕ)
    (retries : ℕ) : Except String β × ℕ :=
  batchRetryLoopAux process i (CONFIG_MAX_RETRIES - retries) retries

/-- The batch loop of `startClassificationTask`, from batch `i` on.
Per iteration: persist the state with `currentBatch := i`, run the batch
with retry, and on success write the result into the cache slot `i`
(persisting the cache) and persist the state with the updated
`processedNotes`, `batchResults` and `retryCount`.  On failure the `catch`
block persists the state with status `error`.  After the last batch the
completed state is persisted.  Returns the final state, the final cache,
the trace of every persisted state in order, and whether the run failed. -/
def runBatchesAux (batches : List (List Note)) (process : ℕ → Except String β) :
    ℕ → ℕ → TaskState β → List (Option β) →
    TaskState β × List (Option β) × List (TaskState β) × Bool
  | 0, _, state, cache =>
    let stC := { state with status := BStatus.completed, batchResults := cache }
    (stC, cache, [stC], false)
  | fuel + 1, i, state, cache =>
    if h : i < batches.length then
      let batch := batches.get ⟨i, h⟩
      let st1 := { state with currentBatch := i }
      match batchRetryLoop process i 0 with
      | (Except.error e, rc) =>
        let stE := { st1 with
          status := BStatus.errored
          error := some e
          retryCount := st1.retryCount + rc }
        (stE, cache, [st1, stE], true)
      | (Except.ok r, rc) =>
        let cache1 := setCache cache i r
        let st2 := { st1 with
          processedNotes := st1.processedNotes + batch.length
          batchResults := cache1
          retryCount := st1.retryCount + rc }
        let rest := runBatchesAux batches process fuel (i + 1) st2 cache1
        (rest.1, rest.2.1, st1 :: st2 :: rest.2.2.1, rest.2.2.2)
    else
      let stC := { state with status := BStatus.completed, batchResults := cache }
      (stC, cache, [stC], false)

def runBatches (batches : List (List Note)) (process : ℕ → Except String β)
    (i : ℕ) (state : TaskState β) (cache : List (Option β)) :
    TaskState β × List (Option β) × List (TaskState β) × Bool :=
  runBatchesAux batches process (batches.length - i) i state cache

/-- Embedding of `startClassificationTask`: reject an empty valid-note set
and an already running task; resume a `paused` task with a matching note
count from its saved `currentBatch` with the cached results, otherwise
start a fresh running state and clear the cache; then run the batch loop.
Returns the final store, the thrown error or the final state, and the
trace of persisted task states. -/
def startClassificationTask (notes : List Note) (process : ℕ → Except String β)
    (store : TaskStore β) :
    TaskStore β × Except String (TaskState β) × List (TaskState β) :=
  let validNotes := notes.filter validNote
  if validNotes.length = 0 then (store, Except.error "没有可分类的快记", [])
  else if store.taskState.status = BStatus.running then
    (store, Except.error "已有任务正在运行", [])
  else
    let batches := createBatches validNotes CONFIG_BATCH_SIZE
    let resume := store.taskState.status = BStatus.paused ∧
      store.taskState.totalNotes = validNotes.length
    let state0 := if resume then
        { store.taskState with status := BStatus.running, error := none }
      else
        { createInitialState with
          status := BStatus.running
          totalNotes := validNotes.length
          totalBatches := batches.length }
    let cache0 := if resume then store.batchCache else []
    let run := runBatches batches process state0.currentBatch state0 cache0
    (⟨run.1, run.2.1⟩,
     if run.2.2.2 then Except.error (run.1.error.getD "") else Except.ok run.1,
     state0 :: run.2.2.1)

/-- Embedding of `retryTask`: only `error` and `paused` states can be
retried; reset `error` and `retryCount`, persist, and re-invoke
`startClassificationTask`. -/
def retryTask (notes : List Note) (process : ℕ → Except String β)
    (store : TaskStore β) :
    TaskStore β × Except String (TaskState β) × List (TaskState β) :=
  let state := store.taskState
  if state.status ≠ BStatus.errored ∧ state.status ≠ BStatus.paused then
    (store, Except.error "没有可重试的任务", [])
  else
    let state1 := { state with error := none, retryCount := 0 }
    let store1 := { store with taskState := state1 }
    let run := startClassificationTask notes process store1
    (run.1, run.2.1, state1 :: run.2.2)

/-- Sum of the sizes of the batches with index strictly below `k`. -/
def batchSizesBelow (batches : List (List Note)) (k : ℕ) : ℕ :=
  ((batches.take k).map List.length).sum

/-! Concrete example data used to evaluate the embedded code on explicit
inputs. -/

/-- A store with one embedded note inside one cluster. -/
def storeOneNote : ClassifierStore :=
  ⟨[⟨"n1", [1, 0]⟩], [⟨"c1", [1, 0], ["n1"]⟩]⟩

/-- A store with two identical-centroid singleton clusters. -/
def storeTwoClusters : ClassifierStore :=
  ⟨[⟨"n1", [1, 0]⟩, ⟨"n2", [1, 0]⟩],
   [⟨"a", [1, 0], ["n1"]⟩, ⟨"b", [1, 0], ["n2"]⟩]⟩

/-- A four-member cluster consisting of two orthogonal embedding pairs. -/
def clusterFour : Cluster := ⟨"c", [1, 0], ["n1", "n2", "n3", "n4"]⟩

/-- A store with one four-member cluster consisting of two orthogonal pairs. -/
def storeFourMembers : ClassifierStore :=
  ⟨[⟨"n1", [1, 0]⟩, ⟨"n2", [1, 0]⟩, ⟨"n3", [0, 1]⟩, ⟨"n4", [0, 1]⟩],
   [clusterFour]⟩

/-- A queue holding one pending task for note n1. -/
def queueOnePending : List QTask := [⟨"t1", "n1", QStatus.pending⟩]

/-- Notes whose contents are all blank after trimming. -/
def notesAllBlank : List Note := [⟨"a", "  "⟩, ⟨"b", ""⟩]

/-- Thirty-one identical one-word notes: two batches of sizes 30 and 1. -/
def notes31 : List Note := List.replicate 31 ⟨"n", "x"⟩

/-- Five one-word notes: a single batch of size 5. -/
def notes5 : List Note := List.replicate 5 ⟨"n", "x"⟩

/-- A batch oracle that succeeds on every batch with result `200 + i`. -/
def procC1 : ℕ → Except String ℕ := fun i => Except.ok (200 + i)

/-- A batch oracle that succeeds on every batch with result `i`. -/
def procOk : ℕ → Except String ℕ := fun i => Except.ok i

/-- Persisted state of a bulk task that failed at batch 1 of 2, with the
result of the completed batch 0 cached. -/
def errState : TaskState ℕ :=
  ⟨BStatus.errored, 31, 30, 1, 2, [some 100], some "API 请求失败: 500", 3⟩

/-- The store holding `errState` and the cached result of batch 0. -/
def errStore : TaskStore ℕ := ⟨errState, [some 100]⟩

/-- A store holding only the initial idle task state. -/
def freshTaskStore : TaskStore ℕ := ⟨createInitialState, []⟩

/-! Helper lemmas about the scanning loops and the stores. -/

theorem argmaxAux_le (score : α → ℝ) (l : List α) (m : ℝ) (b : Option α) :
    m ≤ (argmaxAux score l m b).1 := by
  induction l generalizing m b with
  | nil => simp [argmaxAux]
  | cons x xs ih =>
    by_cases h : score x > m
    · simpa [argmaxAux, h] using le_trans (le_of_lt h) (ih (score x) (some x))
    · simpa [argmaxAux, h] using ih m b

theorem argmaxAux_ge (score : α → ℝ) (l : List α) (m : ℝ) (b : Option α) :
    ∀ x ∈ l, score x ≤ (argmaxAux score l m b).1 := by
  induction l generalizing m b with
  | nil => simp
  | cons y ys ih =>
    intro x hx
    rcases List.mem_cons.mp hx with rfl | hx
    · by_cases h : score x > m
      · simpa [argmaxAux, h] using argmaxAux_le score ys (score x) (some x)
      · by_cases hm : score x ≤ m
        · exact le_trans hm (by simpa [argmaxAux, h] using argmaxAux_le score ys m b)
        · exact absurd (lt_of_not_le hm) h
    · by_cases h : score y > m
      · simpa [argmaxAux, h] using ih (score y) (some y) x hx
      · simpa [argmaxAux, h] using ih m b x hx

theorem argmaxAux_cases (score : α → ℝ) (l : List α) (m : ℝ) (b : Option α) :
    argmaxAux score l m b = (m, b) ∨
      ∃ x ∈ l, argmaxAux score l m b = (score x, some x) ∧ m < score x := by
  induction l generalizing m b with
  | nil => left; simp [argmaxAux]
  | cons y ys ih =>
    by_cases h : score y > m
    · rcases ih (score y) (some y) with h2 | ⟨x, hx, h2, h3⟩
      · right
        exact ⟨y, List.mem_cons_self y ys, by simpa [argmaxAux, h] using h2, h⟩
      · right
        exact ⟨x, List.mem_cons_of_mem y hx, by simpa [argmaxAux, h] using h2,
          lt_trans h h3⟩
    · rcases ih m b with h2 | ⟨x, hx, h2, h3⟩
      · left
        simpa [argmaxAux, h] using h2
      · right
        exact ⟨x, List.mem_cons_of_mem y hx, by simpa [argmaxAux, h] using h2, h3⟩

theorem argmaxAux_reached (score : α → ℝ) (l : List α) (m t : ℝ)
    (ht : m < t) (hr : t ≤ (argmaxAux score l m none).1) :
    ∃ x ∈ l, argmaxAux score l m none = (score x, some x) := by
  rcases argmaxAux_cases score l m none with h | ⟨x, hx, h2, _⟩
  · rw [h] at hr
    exact absurd hr (not_le.mpr ht)
  · exact ⟨x, hx, h2⟩

theorem argmaxAux_some_mem (score : α → ℝ) (l : List α) (m : ℝ) (x : α)
    (h : (argmaxAux score l m none).2 = some x) :
    x ∈ l ∧ (argmaxAux score l m none).1 = score x := by
  rcases argmaxAux_cases score l m none with h2 | ⟨y, hy, h2, _⟩
  · rw [h2] at h
    simp at h
  · rw [h2] at h
    simp only [Option.some.injEq] at h
    subst h
    exact ⟨hy, by rw [h2]⟩

theorem mem_pairIndices {n i j : ℕ} : (i, j) ∈ pairIndices n ↔ i < j ∧ j < n := by
  simp only [pairIndices, List.mem_flatMap, List.mem_map, List.mem_filter,
    List.mem_range, decide_eq_true_eq, Prod.mk.injEq]
  constructor
  · rintro ⟨a, ha, b, ⟨hb, hab⟩, rfl, rfl⟩
    exact ⟨hab, hb⟩
  · rintro ⟨hij, hj⟩
    exact ⟨i, lt_trans hij hj, j, ⟨hj, hij⟩, rfl, rfl⟩

theorem mem_pairsOf {p : α × α} : ∀ {l : List α}, p ∈ pairsOf l → p.1 ∈ l ∧ p.2 ∈ l := by
  intro l
  induction l with
  | nil => simp [pairsOf]
  | cons x xs ih =>
    intro hp
    rcases List.mem_append.mp hp with h | h
    · rcases List.mem_map.mp h with ⟨y, hy, rfl⟩
      exact ⟨List.mem_cons_self x xs, List.mem_cons_of_mem x hy⟩
    · rcases ih h with ⟨h1, h2⟩
      exact ⟨List.mem_cons_of_mem x h1, List.mem_cons_of_mem x h2⟩

/-- The members of a cluster id list, each looked up once by id. -/
def membersOf (store : ClassifierStore) (ids : List String) : List NoteEmbedding :=
  ids.filterMap (fun id => store.embeddings.find? (fun e => e.noteId == id))

/-- The embeddings of the members of an id list, one per member, in id-list
order. -/
def embeddingsOfIds (store : ClassifierStore) (ids : List String) : List (List ℝ) :=
  (membersOf store ids).map (fun e => e.embedding)

theorem find?_key_eq {l : List NoteEmbedding}
    (hk : (l.map NoteEmbedding.noteId).Nodup) {e : NoteEmbedding} (he : e ∈ l) :
    l.find? (fun x => x.noteId == e.noteId) = some e := by
  induction l with
  | nil => simp at he
  | cons a t ih =>
    simp only [List.map_cons, List.nodup_cons] at hk
    rcases List.mem_cons.mp he with rfl | he
    · simp [List.find?_cons_of_pos]
    · have hne : (a.noteId == e.noteId) = false := by
        simp only [beq_eq_false_iff_ne, ne_eq]
        intro hc
        exact hk.1 (hc ▸ List.mem_map.mpr ⟨e, he, rfl⟩)
      rw [List.find?_cons_of_neg _ (by simp [hne]), ih hk.2 he]

theorem filter_perm_membersOf (store : ClassifierStore) (ids : List String)
    (hk : (store.embeddings.map NoteEmbedding.noteId).Nodup) (hids : ids.Nodup) :
    List.Perm (store.embeddings.filter (fun e => ids.contains e.noteId))
      (membersOf store ids) := by
  have hl : store.embeddings.Nodup := hk.of_map _
  have h1 : (store.embeddings.filter (fun e => ids.contains e.noteId)).Nodup :=
    hl.filter _
  have h2 : (membersOf store ids).Nodup := by
    refine hids.filterMap ?_
    intro a a' b hb hb'
    have ha := List.find?_some (Option.mem_def.mp hb)
    have ha' := List.find?_some (Option.mem_def.mp hb')
    exact (eq_of_beq ha).symm.trans (eq_of_beq ha')
  refine (List.perm_ext_iff_of_nodup h1 h2).mpr ?_
  intro e
  simp only [List.mem_filter, membersOf, List.mem_filterMap]
  constructor
  · rintro ⟨he, hid⟩
    refine ⟨e.noteId, by simpa using hid, ?_⟩
    exact find?_key_eq hk he
  · rintro ⟨id, hid, hfind⟩
    have he := List.mem_of_find?_eq_some hfind
    have hbeq := List.find?_some hfind
    have heq : e.noteId = id := by simpa using hbeq
    exact ⟨he, by simp [heq, hid]⟩

theorem computeCentroid_perm {l l2 : List (List ℝ)} {d : ℕ}
    (h : List.Perm l l2) (hd : ∀ v ∈ l, v.length = d) :
    computeCentroid l = computeCentroid l2 := by
  match l, l2 with
  | [], l2 =>
    rw [h.nil_eq]
  | v :: vs, [] =>
    exact absurd h.length_eq (by simp)
  | v :: vs, w :: ws =>
    show ((List.range v.length).map _) = ((List.range w.length).map _)
    have hv : v.length = d := hd v (List.mem_cons_self v vs)
    have hw : w.length = d := by
      refine hd w (h.mem_iff.mpr ?_)
      exact List.mem_cons_self w ws
    rw [hv, hw]
    refine List.map_congr_left ?_
    intro i _
    rw [(h.map (fun u => u.getD i 0)).sum_eq, h.length_eq]

/-- The embedding store filtered by members of an id list computes the same
centroid as the per-id member lookup, given unique keys, unique ids, and a
uniform dimension. -/
theorem centroid_filter_eq_membersOf (store : ClassifierStore) (ids : List String)
    (d : ℕ) (hk : (store.embeddings.map NoteEmbedding.noteId).Nodup)
    (hids : ids.Nodup) (hd : ∀ e ∈ store.embeddings, e.embedding.length = d) :
    computeCentroid
        ((store.embeddings.filter (fun e => ids.contains e.noteId)).map
          (fun e => e.embedding)) =
      computeCentroid (embeddingsOfIds store ids) := by
  refine computeCentroid_perm (d := d) ((filter_perm_membersOf store ids hk hids).map _) ?_
  intro v hv
  rcases List.mem_map.mp hv with ⟨e, he, rfl⟩
  exact hd e (List.mem_of_mem_filter he)

theorem zipWith_mul_self (v : List ℝ) :
    List.zipWith (fun x y => x * y) v v = v.map (fun x => x * x) := by
  induction v with
  | nil => rfl
  | cons a t ih => simp [ih]

theorem sumSq_pos (v : List ℝ) (x : ℝ) (hx : x ∈ v) (hx0 : x ≠ 0) :
    0 < (v.map (fun y => y * y)).sum := by
  have h1 : 0 < x * x := mul_self_pos.mpr hx0
  have h2 : x * x ≤ (v.map (fun y => y * y)).sum := by
    refine List.single_le_sum ?_ _ (List.mem_map.mpr ⟨x, hx, rfl⟩)
    intro y hy
    rcases List.mem_map.mp hy with ⟨z, _, rfl⟩
    exact mul_self_nonneg z
  exact lt_of_lt_of_le h1 h2

/-- Claim C9 — `cosineSimilarity` returns 0 when either argument is empty
(a JavaScript null argument behaves identically to the empty list), when
the lengths differ, or when either vector has zero norm (in particular
against a zero vector); and `cosineSimilarity v v = 1` exactly (the model
uses exact real arithmetic, so "up to floating-point epsilon" becomes
equality) for every vector with a non-zero entry. -/
theorem cosineSimilarity_spec :
    (∀ b : List ℝ, cosineSimilarity [] b = 0) ∧
    (∀ a : List ℝ, cosineSimilarity a [] = 0) ∧
    (∀ a b : List ℝ, a.length ≠ b.length → cosineSimilarity a b = 0) ∧
    (∀ a b : List ℝ, (a.map (fun x => x * x)).sum = 0 → cosineSimilarity a b = 0) ∧
    (∀ a b : List ℝ, (b.map (fun x => x * x)).sum = 0 → cosineSimilarity a b = 0) ∧
    (∀ (a : List ℝ) (n : ℕ), cosineSimilarity a (List.replicate n 0) = 0) ∧
    (∀ v : List ℝ, (∃ x ∈ v, x ≠ 0) → cosineSimilarity v v = 1) := by
  have hzB : ∀ a b : List ℝ, (b.map (fun x => x * x)).sum = 0 →
      cosineSimilarity a b = 0 := by
    intro a b hb
    unfold cosineSimilarity
    by_cases h1 : a.length ≠ b.length ∨ a.length = 0
    · rw [if_pos h1]
    · rw [if_neg h1]
      have hs : Real.sqrt ((b.map (fun x => x * x)).sum) = 0 := by
        rw [hb, Real.sqrt_zero]
      rw [if_pos (Or.inr hs)]
  have hzA : ∀ a b : List ℝ, (a.map (fun x => x * x)).sum = 0 →
      cosineSimilarity a b = 0 := by
    intro a b ha
    unfold cosineSimilarity
    by_cases h1 : a.length ≠ b.length ∨ a.length = 0
    · rw [if_pos h1]
    · rw [if_neg h1]
      have hs : Real.sqrt ((a.map (fun x => x * x)).sum) = 0 := by
        rw [ha, Real.sqrt_zero]
      rw [if_pos (Or.inl hs)]
  have hmis : ∀ a b : List ℝ, a.length ≠ b.length → cosineSimilarity a b = 0 := by
    intro a b h
    unfold cosineSimilarity
    rw [if_pos (Or.inl h)]
  refine ⟨?_, ?_, hmis, hzA, hzB, ?_, ?_⟩
  · intro b
    by_cases hb : b = []
    · subst hb
      unfold cosineSimilarity
      simp
    · exact hmis [] b (by simpa using fun hc => hb (List.length_eq_zero.mp hc.symm))
  · intro a
    by_cases ha : a = []
    · subst ha
      unfold cosineSimilarity
      simp
    · exact hmis a [] (by simpa using fun hc => ha (List.length_eq_zero.mp hc))
  · intro a n
    refine hzB a _ ?_
    induction n with
    | zero => simp
    | succ k ih => simp [List.replicate_succ, ih]
  · intro v ⟨x, hx, hx0⟩
    have hvne : v ≠ [] := List.ne_nil_of_mem hx
    have hS : 0 < (v.map (fun y => y * y)).sum := sumSq_pos v x hx hx0
    unfold cosineSimilarity
    have h1 : ¬(v.length ≠ v.length ∨ v.length = 0) := by
      simp [List.length_eq_zero, hvne]
    rw [if_neg h1]
    have hsq : Real.sqrt ((v.map (fun y => y * y)).sum) ≠ 0 := by
      intro hc
      rw [Real.sqrt_eq_zero'] at hc
      exact absurd hc (not_le.mpr hS)
    rw [if_neg (by simp [hsq])]
    rw [zipWith_mul_self,
      Real.mul_self_sqrt (le_of_lt hS)]
    exact div_self (ne_of_gt hS)

/-- Witness for C9 at concrete inputs. -/
theorem cosineSimilarity_spec_witness :
    cosineSimilarity [] [1] = 0 ∧
    cosineSimilarity [1] [] = 0 ∧
    (([1, 2] : List ℝ).length ≠ ([1] : List ℝ).length ∧ cosineSimilarity [1, 2] [1] = 0) ∧
    ((([0] : List ℝ).map (fun x => x * x)).sum = 0 ∧ cosineSimilarity [0] [3] = 0) ∧
    ((([0, 0] : List ℝ).map (fun x => x * x)).sum = 0 ∧ cosineSimilarity [2, 5] [0, 0] = 0) ∧
    cosineSimilarity [2, 5] (List.replicate 2 0) = 0 ∧
    ((3 : ℝ) ∈ ([3, 4] : List ℝ) ∧ (3 : ℝ) ≠ 0 ∧ cosineSimilarity [3, 4] [3, 4] = 1) := by
  have hlen : ([1, 2] : List ℝ).length ≠ ([1] : List ℝ).length := by simp
  have hz1 : (([0] : List ℝ).map (fun x => x * x)).sum = 0 := by norm_num
  have hz2 : (([0, 0] : List ℝ).map (fun x => x * x)).sum = 0 := by norm_num
  have hm : (3 : ℝ) ∈ ([3, 4] : List ℝ) := by simp
  have hne : (3 : ℝ) ≠ 0 := by norm_num
  exact ⟨cosineSimilarity_spec.1 [1],
    cosineSimilarity_spec.2.1 [1],
    ⟨hlen, cosineSimilarity_spec.2.2.1 [1, 2] [1] hlen⟩,
    ⟨hz1, cosineSimilarity_spec.2.2.2.1 [0] [3] hz1⟩,
    ⟨hz2, cosineSimilarity_spec.2.2.2.2.1 [2, 5] [0, 0] hz2⟩,
    cosineSimilarity_spec.2.2.2.2.2.1 [2, 5] 2,
    ⟨hm, hne, cosineSimilarity_spec.2.2.2.2.2.2 [3, 4] ⟨3, hm, hne⟩⟩⟩

/-! Helper lemmas about the store operations. -/

theorem set_eq_of_getElem? {l : List γ} {i : ℕ} {v : γ} (h : l[i]? = some v) :
    l.set i v = l := by
  apply List.ext_getElem?
  intro j
  by_cases hj : j = i
  · subst hj
    have hi : j < l.length := by
      by_contra hc
      rw [List.getElem?_eq_none (by omega)] at h
      exact Option.noConfusion h
    rw [List.getElem?_set_self' ]
    rw [h]
    simp
  · rw [List.getElem?_set_ne (by omega)]

theorem findIdx?_unique_id (clusters : List Cluster)
    (hids : (clusters.map Cluster.id).Nodup) (c : Cluster) (k : ℕ)
    (hk : k < clusters.length) (hck : clusters[k] = c) :
    clusters.findIdx? (fun x => x.id == c.id) = some k := by
  refine List.findIdx?_eq_some_iff_getElem.mpr ⟨hk, by simp [hck], ?_⟩
  intro j hjk
  simp only [Bool.not_eq_true, beq_eq_false_iff_ne, ne_eq]
  intro hc
  have hj : j < clusters.length := Nat.lt_trans hjk hk
  have hj2 : j < (clusters.map Cluster.id).length := by simpa using hj
  have hk2 : k < (clusters.map Cluster.id).length := by simpa using hk
  have hmap : (clusters.map Cluster.id)[j] = (clusters.map Cluster.id)[k] := by
    simp only [List.getElem_map]
    rw [hck, hc]
  exact absurd (hids.getElem_inj_iff.mp hmap) (Nat.ne_of_lt hjk)

theorem upsertCluster_replace (c c0 : Cluster) (store : ClassifierStore)
    (hids : (store.clusters.map Cluster.id).Nodup) (k : ℕ)
    (hk : k < store.clusters.length) (hck : store.clusters[k] = c0)
    (hid : c.id = c0.id) :
    (upsertCluster c store).clusters = store.clusters.set k c := by
  unfold upsertCluster
  rw [hid, findIdx?_unique_id store.clusters hids c0 k hk hck]

theorem upsertCluster_push (c : Cluster) (store : ClassifierStore)
    (h : ∀ x ∈ store.clusters, x.id ≠ c.id) :
    (upsertCluster c store).clusters = store.clusters ++ [c] := by
  unfold upsertCluster
  have : store.clusters.findIdx? (fun x => x.id == c.id) = none := by
    rw [List.findIdx?_eq_none_iff]
    intro x hx
    simp [h x hx]
  rw [this]

theorem upsertEmbedding_clusters (e : NoteEmbedding) (store : ClassifierStore) :
    (upsertEmbedding e store).clusters = store.clusters := by
  unfold upsertEmbedding
  rcases h : store.embeddings.findIdx? (fun x => x.noteId == e.noteId) with _ | i <;>
    rw [h]

theorem upsertEmbedding_mem (e : NoteEmbedding) (store : ClassifierStore) :
    e ∈ (upsertEmbedding e store).embeddings := by
  unfold upsertEmbedding
  rcases h : store.embeddings.findIdx? (fun x => x.noteId == e.noteId) with _ | i <;>
    rw [h]
  · simp
  · obtain ⟨hi, -, -⟩ := List.findIdx?_eq_some_iff_getElem.mp h
    show e ∈ store.embeddings.set i e
    have hi2 : i < (store.embeddings.set i e).length := by simpa using hi
    have h2 : (store.embeddings.set i e)[i] = e :=
      List.getElem_set_self _
    have h3 := (store.embeddings.set i e).getElem_mem hi2
    rw [h2] at h3
    exact h3

theorem upsertEmbedding_subset (e x : NoteEmbedding) (store : ClassifierStore)
    (hx : x ∈ (upsertEmbedding e store).embeddings) :
    x ∈ store.embeddings ∨ x = e := by
  unfold upsertEmbedding at hx
  rcases h : store.embeddings.findIdx? (fun x => x.noteId == e.noteId) with _ | i <;>
    rw [h] at hx <;> simp only [] at hx
  · rcases List.mem_append.mp hx with h2 | h2
    · exact Or.inl h2
    · exact Or.inr (by simpa using h2)
  · exact List.mem_or_eq_of_mem_set hx

theorem upsertEmbedding_keys (e : NoteEmbedding) (store : ClassifierStore)
    (hk : (store.embeddings.map NoteEmbedding.noteId).Nodup) :
    ((upsertEmbedding e store).embeddings.map NoteEmbedding.noteId).Nodup := by
  unfold upsertEmbedding
  rcases h : store.embeddings.findIdx? (fun x => x.noteId == e.noteId) with _ | i <;>
    rw [h]
  · have hnone := List.findIdx?_eq_none_iff.mp h
    show ((store.embeddings ++ [e]).map NoteEmbedding.noteId).Nodup
    rw [List.map_append]
    refine hk.append (by simp) ?_
    intro x hx
    rcases List.mem_map.mp hx with ⟨y, hy, rfl⟩
    simp only [List.map_cons, List.map_nil, List.mem_singleton]
    intro hc
    have := hnone y hy
    simp [hc] at this
  · obtain ⟨hi, hp, -⟩ := List.findIdx?_eq_some_iff_getElem.mp h
    have hkey : store.embeddings[i].noteId = e.noteId := by simpa using hp
    show ((store.embeddings.set i e).map NoteEmbedding.noteId).Nodup
    rw [List.map_set]
    have : (store.embeddings.map NoteEmbedding.noteId)[i]? = some e.noteId := by
      rw [List.getElem?_eq_getElem (by simpa using hi)]
      simp [hkey]
    rw [set_eq_of_getElem? this]
    exact hk

/-! Claim C10 — the sentinel results of `findNearestCluster`. -/

/-- Claim C10 — `findNearestCluster` returns the record (null, 0, -1)
exactly when the embedding is missing or the cluster list is empty; on a
non-empty cluster list whose clusters all have a missing or empty centroid
it instead returns (null, -1, -1), with similarity -1 rather than 0. -/
theorem findNearestCluster_sentinels :
    (∀ (emb : Option (List ℝ)) (clusters : List Cluster),
       findNearestCluster emb clusters = ⟨none, 0, -1⟩ ↔
         (emb = none ∨ clusters = [])) ∧
    (∀ (e : List ℝ) (clusters : List Cluster), clusters ≠ [] →
       (∀ c ∈ clusters, c.centroid = []) →
       findNearestCluster (some e) clusters = ⟨none, -1, -1⟩) := by
  constructor
  · intro emb clusters
    constructor
    · intro h
      by_contra hc
      push_neg at hc
      obtain ⟨h1, h2⟩ := hc
      have hguard : ¬(emb.isNone ∨ clusters.isEmpty) := by
        simp only [Option.isNone_iff_eq_none, List.isEmpty_iff]
        tauto
      simp only [findNearestCluster, if_neg hguard] at h
      rcases hr : (argmaxAux
          (fun p => cosineSimilarity (emb.getD []) p.2.centroid)
          (clusters.enum.filter (fun p => !p.2.centroid.isEmpty)) (-1) none).2 with
        _ | p
      · rw [hr] at h
        simp only [NearestResult.mk.injEq] at h
        rcases argmaxAux_cases
            (fun p => cosineSimilarity (emb.getD []) p.2.centroid)
            (clusters.enum.filter (fun p => !p.2.centroid.isEmpty)) (-1) none with
          hcase | ⟨x, -, hcase, -⟩
        · rw [hcase] at h
          norm_num at h
        · rw [hcase] at hr
          simp at hr
      · rw [hr] at h
        simp at h
    · intro h
      have hguard : emb.isNone ∨ clusters.isEmpty := by
        rcases h with rfl | rfl <;> simp
      rw [findNearestCluster, if_pos hguard]
  · intro e clusters hne hcent
    have hguard : ¬((some e).isNone ∨ clusters.isEmpty) := by
      simp [List.isEmpty_iff, hne]
    have hcands : clusters.enum.filter (fun p => !p.2.centroid.isEmpty) = [] := by
      rw [List.filter_eq_nil_iff]
      intro p hp
      have := hcent p.2 (List.snd_mem_of_mem_enum hp)
      simp [this]
    simp only [findNearestCluster, if_neg hguard, hcands, argmaxAux]

/-- Witness for C10 at concrete inputs. -/
theorem findNearestCluster_sentinels_witness :
    (findNearestCluster none [⟨"a", [1, 0], ["n"]⟩] = ⟨none, 0, -1⟩) ∧
    (findNearestCluster (some [1, 0]) [] = ⟨none, 0, -1⟩) ∧
    (([⟨"a", [], ["n"]⟩] : List Cluster) ≠ [] ∧
      (∀ c ∈ ([⟨"a", [], ["n"]⟩] : List Cluster), c.centroid = []) ∧
      findNearestCluster (some [1, 0]) [⟨"a", [], ["n"]⟩] = ⟨none, -1, -1⟩) := by
  have hne : ([⟨"a", [], ["n"]⟩] : List Cluster) ≠ [] := by simp
  have hcent : ∀ c ∈ ([⟨"a", [], ["n"]⟩] : List Cluster), c.centroid = [] := by
    intro c hc
    rw [List.mem_singleton] at hc
    rw [hc]
  exact ⟨(findNearestCluster_sentinels.1 none _).mpr (Or.inl rfl),
    (findNearestCluster_sentinels.1 (some [1, 0]) []).mpr (Or.inr rfl),
    hne, hcent, findNearestCluster_sentinels.2 [1, 0] _ hne hcent⟩

/-- When the scan result reaches a level above the sentinel `-1`, the
returned cluster is the argmax candidate: it is an enumerated cluster with
non-empty centroid, the reported similarity is its centroid similarity, and
no candidate scores higher. -/
theorem findNearestCluster_high (e : List ℝ) (clusters : List Cluster) (t : ℝ)
    (ht : -1 < t) (hne : clusters ≠ [])
    (hs : t ≤ (findNearestCluster (some e) clusters).similarity) :
    ∃ p : ℕ × Cluster, p ∈ clusters.enum ∧ p.2.centroid ≠ [] ∧
      findNearestCluster (some e) clusters =
        ⟨some p.2, cosineSimilarity e p.2.centroid, Int.ofNat p.1⟩ ∧
      (∀ q ∈ clusters.enum, q.2.centroid ≠ [] →
        cosineSimilarity e q.2.centroid ≤ cosineSimilarity e p.2.centroid) := by
  have hguard : ¬((some e : Option (List ℝ)).isNone ∨ clusters.isEmpty) := by
    simp [List.isEmpty_iff, hne]
  have hval : findNearestCluster (some e) clusters =
      (match (argmaxAux (fun p => cosineSimilarity e p.2.centroid)
          (clusters.enum.filter (fun p => !p.2.centroid.isEmpty)) (-1) none).2 with
        | none => (⟨none, (argmaxAux (fun p => cosineSimilarity e p.2.centroid)
            (clusters.enum.filter (fun p => !p.2.centroid.isEmpty)) (-1) none).1,
            -1⟩ : NearestResult)
        | some p => ⟨some p.2, (argmaxAux (fun p => cosineSimilarity e p.2.centroid)
            (clusters.enum.filter (fun p => !p.2.centroid.isEmpty)) (-1) none).1,
            Int.ofNat p.1⟩) := by
    simp only [findNearestCluster, if_neg hguard, Option.getD_some]
  rcases argmaxAux_cases (fun p => cosineSimilarity e p.2.centroid)
      (clusters.enum.filter (fun p => !p.2.centroid.isEmpty)) (-1) none with
    hcase | ⟨x, hx, hcase, -⟩
  · rw [hcase] at hval
    rw [hval] at hs
    simp only at hs
    exact absurd hs (not_le.mpr ht)
  · rw [hcase] at hval
    simp only at hval
    obtain ⟨hxmem, hxcent⟩ := List.mem_filter.mp hx
    refine ⟨x, hxmem, by simpa using hxcent, ?_, ?_⟩
    · exact hval
    · intro q hq hqcent
      have hq2 : q ∈ clusters.enum.filter (fun p => !p.2.centroid.isEmpty) :=
        List.mem_filter.mpr ⟨hq, by simpa using hqcent⟩
      have := argmaxAux_ge (fun p => cosineSimilarity e p.2.centroid)
        (clusters.enum.filter (fun p => !p.2.centroid.isEmpty)) (-1) none q hq2
      rw [hcase] at this
      exact this

/-! Claim C7 — idempotent enqueue of classification tasks. -/

/-- Claim C7 — the queue keeps at most one pending task per noteId:
enqueueing when a pending task with the same noteId exists is a no-op
(one pending entry remains), enqueueing with no pending task for that
noteId appends the new entry, and the at-most-one-pending invariant is
preserved for every noteId. -/
theorem enqueueClassificationTask_dedup (queue : List QTask) (task : QTask) :
    ((∃ t ∈ queue, t.noteId = task.noteId ∧ t.status = QStatus.pending) →
       enqueueClassificationTask task queue = queue) ∧
    (pendingCount queue task.noteId = 0 →
       enqueueClassificationTask task queue = queue ++ [task]) ∧
    (∀ nid, pendingCount queue nid ≤ 1 →
       pendingCount (enqueueClassificationTask task queue) nid ≤ 1) ∧
    (pendingCount queue task.noteId = 1 →
       pendingCount (enqueueClassificationTask task queue) task.noteId = 1) := by
  rcases hfind : queue.find? (fun t => t.noteId == task.noteId &&
      decide (t.status = QStatus.pending)) with _ | t0
  · have hnone := List.find?_eq_none.mp hfind
    have hres : enqueueClassificationTask task queue = queue ++ [task] := by
      unfold enqueueClassificationTask
      rw [hfind]
    have hzero : pendingCount queue task.noteId = 0 := by
      unfold pendingCount
      rw [List.length_eq_zero]
      rw [List.filter_eq_nil_iff]
      intro t ht
      exact hnone t ht
    refine ⟨?_, fun _ => hres, ?_, ?_⟩
    · rintro ⟨t, ht, h1, h2⟩
      exact absurd (by simp [h1, h2]) (hnone t ht)
    · intro nid hle
      rw [hres]
      unfold pendingCount at hle ⊢
      rw [List.filter_append, List.length_append]
      by_cases hmatch : task.noteId == nid ∧ task.status = QStatus.pending
      · have h0 : (queue.filter (fun t => t.noteId == nid &&
            decide (t.status = QStatus.pending))).length = 0 := by
          rw [List.length_eq_zero, List.filter_eq_nil_iff]
          intro t ht hc
          have h1 := hnone t ht
          simp only [Bool.and_eq_true, beq_iff_eq, decide_eq_true_eq] at hc h1
          have : (task.noteId == nid) = true := hmatch.1
          exact h1 ⟨by rw [hc.1, eq_of_beq this], hc.2⟩
        rw [h0]
        have h1 : (List.filter (fun t => t.noteId == nid &&
            decide (t.status = QStatus.pending)) [task]).length ≤ 1 := by
          simp only [List.filter]
          rcases (task.noteId == nid && decide (task.status = QStatus.pending)) with _ | _ <;>
            simp
        omega
      · have h1 : ([task].filter (fun t => t.noteId == nid &&
            decide (t.status = QStatus.pending))).length = 0 := by
          simp only [List.filter, List.length_eq_zero]
          rcases hcond : (task.noteId == nid && decide (task.status = QStatus.pending)) with _ | _
          · rfl
          · simp only [Bool.and_eq_true, beq_iff_eq, decide_eq_true_eq] at hcond
            exact absurd ⟨by simp [hcond.1], hcond.2⟩ hmatch
        omega
    · intro hone
      rw [hzero] at hone
      exact absurd hone (by norm_num)
  · have ht0 := List.mem_of_find?_eq_some hfind
    have hp := List.find?_some hfind
    have hres : enqueueClassificationTask task queue = queue := by
      unfold enqueueClassificationTask
      rw [hfind]
    have hpos : pendingCount queue task.noteId ≠ 0 := by
      unfold pendingCount
      intro hc
      rw [List.length_eq_zero, List.filter_eq_nil_iff] at hc
      exact hc t0 ht0 hp
    exact ⟨fun _ => hres, fun h0 => absurd h0 hpos, fun nid h => by rw [hres]; exact h,
      fun h => by rw [hres]; exact h⟩

/-- Witness for C7: one pending task for n1 is in the queue; enqueueing a
second task for n1 is a no-op, and a task for n2 is appended. -/
theorem enqueueClassificationTask_dedup_witness :
    ((∃ t ∈ queueOnePending, t.noteId = "n1" ∧ t.status = QStatus.pending) ∧
      enqueueClassificationTask ⟨"t2", "n1", QStatus.pending⟩ queueOnePending =
        queueOnePending) ∧
    (pendingCount queueOnePending "n2" = 0 ∧
      enqueueClassificationTask ⟨"t3", "n2", QStatus.pending⟩ queueOnePending =
        queueOnePending ++ [⟨"t3", "n2", QStatus.pending⟩]) ∧
    (pendingCount queueOnePending "n1" ≤ 1 ∧
      pendingCount (enqueueClassificationTask ⟨"t2", "n1", QStatus.pending⟩
        queueOnePending) "n1" ≤ 1) ∧
    (pendingCount queueOnePending "n1" = 1 ∧
      pendingCount (enqueueClassificationTask ⟨"t2", "n1", QStatus.pending⟩
        queueOnePending) "n1" = 1) := by
  have hex : ∃ t ∈ queueOnePending, t.noteId = "n1" ∧ t.status = QStatus.pending := by
    refine ⟨⟨"t1", "n1", QStatus.pending⟩, ?_, rfl, rfl⟩
    simp [queueOnePending]
  have hz : pendingCount queueOnePending "n2" = 0 := by decide
  have hle : pendingCount queueOnePending "n1" ≤ 1 := by decide
  have hone : pendingCount queueOnePending "n1" = 1 := by decide
  exact ⟨⟨hex, (enqueueClassificationTask_dedup queueOnePending _).1 hex⟩,
    ⟨hz, (enqueueClassificationTask_dedup queueOnePending _).2.1 hz⟩,
    ⟨hle, (enqueueClassificationTask_dedup queueOnePending _).2.2.1 "n1" hle⟩,
    ⟨hone, (enqueueClassificationTask_dedup queueOnePending _).2.2.2 hone⟩⟩

/-! Claim C8 — `reclassifyAll` with no valid note. -/

/-- Claim C8 — when no note has non-empty trimmed content, `reclassifyAll`
returns success `false` with a non-empty error message and leaves both the
cluster store and the embedding store untouched: the clearing of the
clusters happens only after the emptiness check has passed. -/
theorem reclassifyAll_empty (notes : List Note)
    (batchEmbs : List (Option (List ℝ))) (newIds : ℕ → String)
    (store : ClassifierStore) (h : ∀ n ∈ notes, validNote n = false) :
    reclassifyAll notes batchEmbs newIds store =
      (store, ⟨false, some "没有可分类的快记", none⟩) ∧
    (reclassifyAll notes batchEmbs newIds store).1.clusters = store.clusters ∧
    (reclassifyAll notes batchEmbs newIds store).1.embeddings = store.embeddings ∧
    "没有可分类的快记" ≠ "" := by
  have hfil : notes.filter validNote = [] := by
    rw [List.filter_eq_nil_iff]
    intro n hn
    simp [h n hn]
  have hres : reclassifyAll notes batchEmbs newIds store =
      (store, ⟨false, some "没有可分类的快记", none⟩) := by
    unfold reclassifyAll
    rw [hfil]
    rfl
  exact ⟨hres, by rw [hres], by rw [hres], by decide⟩

/-- Witness for C8: two blank notes, a store with one cluster. -/
theorem reclassifyAll_empty_witness :
    (∀ n ∈ notesAllBlank, validNote n = false) ∧
    reclassifyAll notesAllBlank [] (fun _ => "fresh") storeOneNote =
      (storeOneNote, ⟨false, some "没有可分类的快记", none⟩) ∧
    (reclassifyAll notesAllBlank [] (fun _ => "fresh") storeOneNote).1.clusters =
      storeOneNote.clusters := by
  have h : ∀ n ∈ notesAllBlank, validNote n = false := by decide
  refine ⟨h, ?_, ?_⟩
  · exact (reclassifyAll_empty notesAllBlank [] (fun _ => "fresh") storeOneNote h).1
  · exact (reclassifyAll_empty notesAllBlank [] (fun _ => "fresh") storeOneNote h).2.1

/-! Claim C2 — `cleanupNoteClassification`. -/

/-- Counterexample to claim C2 as stated: in a store with a single cluster
whose only member is n1, cleaning up n1 leaves the cluster in the store
with empty `noteIds` — the empty cluster is not removed, so "a cluster with
empty noteIds never persists" is false. -/
theorem cleanup_empty_cluster_persists :
    (cleanupNoteClassification "n1" storeOneNote).clusters.map Cluster.noteIds =
      [[]] ∧
    (cleanupNoteClassification "n1" storeOneNote).clusters.length = 1 := by
  constructor
  · decide
  · decide

/-- Claim C2, amended: after `cleanupNoteClassification noteId` the store
holds no embedding for the note and (when no cluster lists the note twice)
no cluster whose `noteIds` still contains the note; but a cluster whose
`noteIds` becomes empty is NOT removed — the cluster list keeps the same
length and ids, the empty cluster persisting in the store. -/
theorem cleanupNoteClassification_spec (noteId : String) (store : ClassifierStore)
    (h : ∀ c ∈ store.clusters, c.noteIds.Nodup) :
    (∀ e ∈ (cleanupNoteClassification noteId store).embeddings, e.noteId ≠ noteId) ∧
    (∀ c ∈ (cleanupNoteClassification noteId store).clusters, noteId ∉ c.noteIds) ∧
    (cleanupNoteClassification noteId store).clusters.length =
      store.clusters.length ∧
    (cleanupNoteClassification noteId store).clusters.map Cluster.id =
      store.clusters.map Cluster.id := by
  unfold cleanupNoteClassification removeNoteFromCluster deleteEmbeddingByNoteId
  refine ⟨?_, ?_, by simp, ?_⟩
  · intro e he
    have := List.of_mem_filter he
    simpa using this
  · intro c hc
    simp only [List.mem_map] at hc
    obtain ⟨c0, hc0, rfl⟩ := hc
    by_cases hin : c0.noteIds.contains noteId
    · rw [if_pos hin]
      intro hmem
      exact ((h c0 hc0).mem_erase_iff.mp hmem).1 rfl
    · rw [if_neg hin]
      intro hmem
      exact hin (List.elem_iff.mpr hmem)
  · rw [List.map_map]
    refine List.map_congr_left ?_
    intro c _
    by_cases hin : noteId ∈ c.noteIds <;> simp [hin]

/-- Witness for the amended C2 at a concrete store. -/
theorem cleanupNoteClassification_spec_witness :
    (∀ c ∈ storeOneNote.clusters, c.noteIds.Nodup) ∧
    (∀ e ∈ (cleanupNoteClassification "n1" storeOneNote).embeddings,
      e.noteId ≠ "n1") ∧
    (∀ c ∈ (cleanupNoteClassification "n1" storeOneNote).clusters,
      "n1" ∉ c.noteIds) ∧
    (cleanupNoteClassification "n1" storeOneNote).clusters.length =
      storeOneNote.clusters.length := by
  have h : ∀ c ∈ storeOneNote.clusters, c.noteIds.Nodup := by
    intro c hc
    simp only [storeOneNote, List.mem_singleton] at hc
    rw [hc]
    decide
  exact ⟨h, (cleanupNoteClassification_spec "n1" storeOneNote h).1,
    (cleanupNoteClassification_spec "n1" storeOneNote h).2.1,
    (cleanupNoteClassification_spec "n1" storeOneNote h).2.2.1⟩

/-! Claim C3 — the processedNotes invariant of the bulk task. -/

/-- Counterexample to claim C3 as stated: in a fresh successful run over 5
notes (one batch), the persisted state right after the batch completes has
`currentBatch = 0` and `processedNotes = 5`, while the sum of the sizes of
the batches with index strictly below `currentBatch` is 0 — the code stores
in `currentBatch` the index of the batch being processed, not the index of
the next batch, so the stated equality fails at every batch-completion
point. -/
theorem processedNotes_strict_counterexample :
    ∃ s ∈ (startClassificationTask notes5 procOk freshTaskStore).2.2,
      0 < s.processedNotes ∧
      s.processedNotes ≠
        batchSizesBelow (createBatches (notes5.filter validNote) CONFIG_BATCH_SIZE)
          s.currentBatch := by
  decide

/-- The batch-loop invariant behind the amended claim C3: starting the loop
at batch `i` with `processedNotes` equal to the total size of the first `i`
batches and `currentBatch` equal to `i` or `i - 1`, every state the loop
persists has `processedNotes` equal to the sum of the batch sizes below
`currentBatch` or below `currentBatch + 1`, and `processedNotes` never
decreases along the persisted trace. -/
theorem runBatchesAux_invariant {β : Type} (batches : List (List Note))
    (process : ℕ → Except String β) :
    ∀ (fuel i : ℕ) (state : TaskState β) (cache : List (Option β)),
      state.processedNotes = batchSizesBelow batches i →
      (state.currentBatch = i ∨ state.currentBatch + 1 = i) →
      (∀ s ∈ (runBatchesAux batches process fuel i state cache).2.2.1,
          state.processedNotes ≤ s.processedNotes) ∧
      List.Chain' (fun a b => a.processedNotes ≤ b.processedNotes)
        (runBatchesAux batches process fuel i state cache).2.2.1 ∧
      (∀ s ∈ (runBatchesAux batches process fuel i state cache).2.2.1,
          s.processedNotes = batchSizesBelow batches s.currentBatch ∨
          s.processedNotes = batchSizesBelow batches (s.currentBatch + 1)) := by
  have hstop : ∀ (i : ℕ) (state : TaskState β) (cache : List (Option β)),
      state.processedNotes = batchSizesBelow batches i →
      (state.currentBatch = i ∨ state.currentBatch + 1 = i) →
      ∀ st ∈ [{ state with status := BStatus.completed, batchResults := cache }],
        (state.processedNotes ≤ st.processedNotes) ∧
        (st.processedNotes = batchSizesBelow batches st.currentBatch ∨
          st.processedNotes = batchSizesBelow batches (st.currentBatch + 1)) := by
    intro i state cache hpn hcb st hst
    rw [List.mem_singleton] at hst
    subst hst
    refine ⟨le_refl _, ?_⟩
    rcases hcb with hcb | hcb
    · left
      show state.processedNotes = batchSizesBelow batches state.currentBatch
      rw [hcb, hpn]
    · right
      show state.processedNotes = batchSizesBelow batches (state.currentBatch + 1)
      rw [hcb, hpn]
  intro fuel
  induction fuel with
  | zero =>
    intro i state cache hpn hcb
    refine ⟨fun s hs => ((hstop i state cache hpn hcb) s hs).1, by simp [runBatchesAux],
      fun s hs => ((hstop i state cache hpn hcb) s hs).2⟩
  | succ fuel ih =>
    intro i state cache hpn hcb
    by_cases hlt : i < batches.length
    · rw [runBatchesAux, dif_pos hlt]
      have hsucc : batchSizesBelow batches (i + 1) =
          batchSizesBelow batches i + (batches.get ⟨i, hlt⟩).length := by
        unfold batchSizesBelow
        rw [List.take_succ, List.getElem?_eq_getElem hlt, List.map_append,
          List.sum_append]
        simp
      rcases hloop : batchRetryLoop process i 0 with ⟨res, rc⟩
      rcases res with e | r
      · simp only
        refine ⟨?_, by simp, ?_⟩
        · intro s hs
          simp only [List.mem_cons, List.not_mem_nil, or_false] at hs
          rcases hs with hs | hs
          · rw [hs]
          · rw [hs]
        · intro s hs
          simp only [List.mem_cons, List.not_mem_nil, or_false] at hs
          rcases hs with hs | hs
          · subst hs
            left
            simpa using hpn
          · subst hs
            left
            simpa using hpn
      · simp only
        obtain ⟨hmono, hchain, hdisj⟩ := ih (i + 1)
          { state with
              currentBatch := i
              processedNotes := state.processedNotes + (batches.get ⟨i, hlt⟩).length
              batchResults := setCache cache i r
              retryCount := state.retryCount + rc }
          (setCache cache i r)
          (by simp only; omega) (Or.inr rfl)
        refine ⟨?_, ?_, ?_⟩
        · intro s hs
          simp only [List.mem_cons] at hs
          rcases hs with hs | hs | hs
          · rw [hs]
          · rw [hs]
            simp
          · exact le_trans (by simp) (hmono s hs)
        · refine List.chain'_cons'.mpr ⟨?_, ?_⟩
          · intro b hb
            simp only [List.head?_cons, Option.mem_def, Option.some.injEq] at hb
            subst hb
            simp
          · refine List.chain'_cons'.mpr ⟨?_, hchain⟩
            intro b hb
            exact le_trans (by simp) (hmono b (List.mem_of_mem_head? hb))
        · intro s hs
          simp only [List.mem_cons] at hs
          rcases hs with hs | hs | hs
          · subst hs
            left
            simpa using hpn
          · subst hs
            right
            show state.processedNotes + (batches.get ⟨i, hlt⟩).length =
              batchSizesBelow batches (i + 1)
            rw [hsucc, hpn]
          · exact hdisj s hs
    · rw [runBatchesAux, dif_neg hlt]
      refine ⟨fun s hs => ((hstop i state cache hpn hcb) s hs).1, by simp,
        fun s hs => ((hstop i state cache hpn hcb) s hs).2⟩

/-- Claim C3, amended: throughout a run of the bulk task started on a fresh
(initial) store, `processedNotes` never decreases from one persisted state
to the next; and every persisted state satisfies `processedNotes` = sum of
the sizes of the batches with index < `currentBatch` (at the start of a
batch iteration) or index ≤ `currentBatch` (once the batch at
`currentBatch` has completed).  The claim as frozen used only the strict
form, which fails from the first batch completion on, because the code
keeps `currentBatch` at the index of the batch just processed. -/
theorem processedNotes_monotone_spec {β : Type} (notes : List Note)
    (process : ℕ → Except String β) :
    List.Chain' (fun a b => a.processedNotes ≤ b.processedNotes)
      (startClassificationTask notes process ⟨createInitialState, []⟩).2.2 ∧
    (∀ s ∈ (startClassificationTask notes process ⟨createInitialState, []⟩).2.2,
      s.processedNotes =
          batchSizesBelow (createBatches (notes.filter validNote) CONFIG_BATCH_SIZE)
            s.currentBatch ∨
      s.processedNotes =
          batchSizesBelow (createBatches (notes.filter validNote) CONFIG_BATCH_SIZE)
            (s.currentBatch + 1)) := by
  by_cases hv : (notes.filter validNote).length = 0
  · unfold startClassificationTask
    rw [if_pos hv]
    exact ⟨by simp, by simp⟩
  · have hrun :
        (startClassificationTask notes process (⟨createInitialState, []⟩ : TaskStore β)).2.2 =
        ({ createInitialState with
            status := BStatus.running
            totalNotes := (notes.filter validNote).length
            totalBatches :=
              (createBatches (notes.filter validNote) CONFIG_BATCH_SIZE).length } ::
          (runBatches (createBatches (notes.filter validNote) CONFIG_BATCH_SIZE)
            process 0
            { createInitialState with
                status := BStatus.running
                totalNotes := (notes.filter validNote).length
                totalBatches :=
                  (createBatches (notes.filter validNote) CONFIG_BATCH_SIZE).length }
            []).2.2.1) := by
      unfold startClassificationTask
      rw [if_neg hv]
      rfl
    obtain ⟨hmono, hchain, hdisj⟩ :=
      runBatchesAux_invariant (createBatches (notes.filter validNote) CONFIG_BATCH_SIZE)
        process ((createBatches (notes.filter validNote) CONFIG_BATCH_SIZE).length - 0) 0
        { createInitialState with
            status := BStatus.running
            totalNotes := (notes.filter validNote).length
            totalBatches :=
              (createBatches (notes.filter validNote) CONFIG_BATCH_SIZE).length }
        [] (by simp [batchSizesBelow, createInitialState]) (Or.inl rfl)
    rw [hrun]
    constructor
    · refine List.chain'_cons'.mpr ⟨?_, hchain⟩
      intro b hb
      exact le_trans (by simp [createInitialState]) (hmono b (List.mem_of_mem_head? hb))
    · intro s hs
      rcases List.mem_cons.mp hs with hs | hs
      · subst hs
        left
        simp [batchSizesBelow, createInitialState]
      · exact hdisj s hs

/-! Claim C1 — retry of a failed batch task. -/

/-- Claim C1 fails on the code: `retryTask` resets `error` and `retryCount`
but leaves the status at `error`, and `startClassificationTask` only resumes
a task whose saved status is `paused`; for an errored task it therefore
creates a brand-new state and clears the batch cache.  Evaluated at a task
that failed at batch 1 of 2 with the result 100 of completed batch 0 cached:
the run does complete as `running → completed`, but it reprocesses batch 0
(a trace state has `currentBatch = 0` and `processedNotes = 0`), overwrites
the cached batch-0 result (the final `batchResults` is the freshly computed
`[200, 201]`, not `[100, 201]`), and counts all 31 notes as processed again
— contradicting the claim that only batches `i..n-1` are processed and that
the cached results for `0..i-1` stay unchanged. -/
theorem retryTask_restarts_from_scratch :
    (retryTask notes31 procC1 errStore).1.taskState.status = BStatus.completed ∧
    (retryTask notes31 procC1 errStore).1.taskState.error = none ∧
    (retryTask notes31 procC1 errStore).1.taskState.batchResults =
      [some 200, some 201] ∧
    (retryTask notes31 procC1 errStore).1.batchCache = [some 200, some 201] ∧
    (retryTask notes31 procC1 errStore).1.taskState.batchResults.get? 0 ≠
      some (some 100) ∧
    (retryTask notes31 procC1 errStore).1.taskState.processedNotes = 31 ∧
    (∃ s ∈ (retryTask notes31 procC1 errStore).2.2,
      s.status = BStatus.running ∧ s.currentBatch = 0 ∧ s.processedNotes = 0) := by
  decide

/-! Claim C6 — the join-or-create threshold of `classifyNote`. -/

/-- Claim C6 — with existing clusters, the note joins the nearest cluster
exactly when the cosine similarity to its centroid reaches 0.7 (`>=`, so
the boundary value 0.7 joins); on joining the note id is appended to the
cluster and its centroid is recomputed as the mean of the embeddings of
all members (including the just-stored embedding of the note); below the
threshold a new singleton cluster is appended whose centroid is the note
vector itself. -/
theorem classifyNote_threshold (store : ClassifierStore) (noteId : String)
    (embedding : List ℝ) (newId : String) (d : ℕ)
    (hne : store.clusters ≠ [])
    (hids : (store.clusters.map Cluster.id).Nodup)
    (hnew : ∀ c ∈ store.clusters, c.id ≠ newId)
    (hkeys : (store.embeddings.map NoteEmbedding.noteId).Nodup)
    (hnd : ∀ c ∈ store.clusters, c.noteIds.Nodup)
    (hnotin : ∀ c ∈ store.clusters, noteId ∉ c.noteIds)
    (hdim : ∀ e ∈ store.embeddings, e.embedding.length = d)
    (hedim : embedding.length = d) :
    ((findNearestCluster (some embedding) store.clusters).similarity <
        SIMILARITY_THRESHOLD →
      (classifyNoteStep noteId embedding newId store).clusters =
        store.clusters ++ [⟨newId, embedding, [noteId]⟩]) ∧
    (SIMILARITY_THRESHOLD ≤
        (findNearestCluster (some embedding) store.clusters).similarity →
      ∃ nearest k, k < store.clusters.length ∧ store.clusters[k]? = some nearest ∧
        (findNearestCluster (some embedding) store.clusters).cluster =
          some nearest ∧
        (findNearestCluster (some embedding) store.clusters).similarity =
          cosineSimilarity embedding nearest.centroid ∧
        (classifyNoteStep noteId embedding newId store).clusters =
          store.clusters.set k
            ⟨nearest.id,
             computeCentroid (embeddingsOfIds
               (upsertEmbedding ⟨noteId, embedding⟩ store)
               (nearest.noteIds ++ [noteId])),
             nearest.noteIds ++ [noteId]⟩) := by
  have hcl : (upsertEmbedding ⟨noteId, embedding⟩ store).clusters = store.clusters :=
    upsertEmbedding_clusters _ _
  have hempty : ¬((upsertEmbedding ⟨noteId, embedding⟩ store).clusters.isEmpty = true) := by
    rw [hcl]
    simp [List.isEmpty_iff, hne]
  constructor
  · intro hlow
    have hcond : ¬(SIMILARITY_THRESHOLD ≤
        (findNearestCluster (some embedding)
          (upsertEmbedding ⟨noteId, embedding⟩ store).clusters).similarity) := by
      rw [hcl]
      exact not_le.mpr hlow
    have hres : classifyNoteStep noteId embedding newId store =
        upsertCluster ⟨newId, embedding, [noteId]⟩
          (upsertEmbedding ⟨noteId, embedding⟩ store) := by
      unfold classifyNoteStep
      rw [if_neg hempty, if_neg hcond]
    rw [hres, upsertCluster_push _ _ (by rw [hcl]; intro x hx; exact hnew x hx), hcl]
  · intro hsim
    obtain ⟨p, hpmem, hpcent, hfind, hmax⟩ :=
      findNearestCluster_high embedding store.clusters SIMILARITY_THRESHOLD
        (by norm_num [SIMILARITY_THRESHOLD]) hne hsim
    have hpget : store.clusters[p.1]? = some p.2 :=
      List.mem_enum_iff_getElem?.mp hpmem
    have hplt : p.1 < store.clusters.length := by
      by_contra hc
      rw [List.getElem?_eq_none (by omega)] at hpget
      exact Option.noConfusion hpget
    have hpelem : store.clusters[p.1] = p.2 := by
      have := List.getElem?_eq_getElem hplt
      rw [hpget] at this
      exact (Option.some.injEq _ _).mp this.symm
    have hpmem' : p.2 ∈ store.clusters := hpelem ▸ store.clusters.getElem_mem hplt
    have hnodupApp : (p.2.noteIds ++ [noteId]).Nodup := by
      refine (hnd p.2 hpmem').append (by simp) ?_
      intro x hx
      simp only [List.mem_singleton]
      intro hc
      subst hc
      exact hnotin p.2 hpmem' hx
    have hcond : SIMILARITY_THRESHOLD ≤
        (findNearestCluster (some embedding)
          (upsertEmbedding ⟨noteId, embedding⟩ store).clusters).similarity := by
      rw [hcl]
      exact hsim
    have hinfilter : (⟨noteId, embedding⟩ : NoteEmbedding) ∈
        (upsertEmbedding ⟨noteId, embedding⟩ store).embeddings.filter
          (fun e => (p.2.noteIds ++ [noteId]).contains e.noteId) := by
      refine List.mem_filter.mpr ⟨upsertEmbedding_mem _ _, ?_⟩
      simp
    have hlenpos : 0 <
        (((upsertEmbedding ⟨noteId, embedding⟩ store).embeddings.filter
          (fun e => (p.2.noteIds ++ [noteId]).contains e.noteId)).map
          (fun e => e.embedding)).length := by
      rw [List.length_map]
      exact List.length_pos.mpr (List.ne_nil_of_mem hinfilter)
    have hres : classifyNoteStep noteId embedding newId store =
        upsertCluster
          ⟨p.2.id,
           computeCentroid
             (((upsertEmbedding ⟨noteId, embedding⟩ store).embeddings.filter
               (fun e => (p.2.noteIds ++ [noteId]).contains e.noteId)).map
               (fun e => e.embedding)),
           p.2.noteIds ++ [noteId]⟩
          (upsertEmbedding ⟨noteId, embedding⟩ store) := by
      unfold classifyNoteStep
      rw [if_neg hempty, if_pos hcond, hcl, hfind]
      simp only
      rw [if_pos hlenpos]
    have hcent : computeCentroid
        (((upsertEmbedding ⟨noteId, embedding⟩ store).embeddings.filter
          (fun e => (p.2.noteIds ++ [noteId]).contains e.noteId)).map
          (fun e => e.embedding)) =
        computeCentroid (embeddingsOfIds (upsertEmbedding ⟨noteId, embedding⟩ store)
          (p.2.noteIds ++ [noteId])) := by
      refine centroid_filter_eq_membersOf _ _ d
        (upsertEmbedding_keys _ _ hkeys) hnodupApp ?_
      intro e he
      rcases upsertEmbedding_subset _ e _ he with h2 | h2
      · exact hdim e h2
      · rw [h2]
        exact hedim
    have hplt1 : p.1 < (upsertEmbedding ⟨noteId, embedding⟩ store).clusters.length := by
      rw [hcl]
      exact hplt
    have hck1 : (upsertEmbedding ⟨noteId, embedding⟩ store).clusters[p.1] = p.2 := by
      simp only [hcl]
      exact hpelem
    refine ⟨p.2, p.1, hplt, hpget, by rw [hfind], by rw [hfind], ?_⟩
    rw [hres, hcent]
    rw [upsertCluster_replace
      ⟨p.2.id,
       computeCentroid (embeddingsOfIds (upsertEmbedding ⟨noteId, embedding⟩ store)
         (p.2.noteIds ++ [noteId])),
       p.2.noteIds ++ [noteId]⟩
      p.2 _ (by rw [hcl]; exact hids) p.1 hplt1 hck1 rfl]
    rw [hcl]

/-- Witness for C6 at a concrete store: one cluster c1 with member n1 and
centroid `[1, 0]`, classifying a new note n2 with embedding `[1, 0]`. -/
theorem classifyNote_threshold_witness :
    (storeOneNote.clusters ≠ [] ∧
     (storeOneNote.clusters.map Cluster.id).Nodup ∧
     (∀ c ∈ storeOneNote.clusters, c.id ≠ "c2") ∧
     (storeOneNote.embeddings.map NoteEmbedding.noteId).Nodup ∧
     (∀ c ∈ storeOneNote.clusters, c.noteIds.Nodup) ∧
     (∀ c ∈ storeOneNote.clusters, "n2" ∉ c.noteIds) ∧
     (∀ e ∈ storeOneNote.embeddings, e.embedding.length = 2) ∧
     ([1, 0] : List ℝ).length = 2) ∧
    (((findNearestCluster (some [1, 0]) storeOneNote.clusters).similarity <
        SIMILARITY_THRESHOLD →
      (classifyNoteStep "n2" [1, 0] "c2" storeOneNote).clusters =
        storeOneNote.clusters ++ [⟨"c2", [1, 0], ["n2"]⟩]) ∧
     (SIMILARITY_THRESHOLD ≤
        (findNearestCluster (some [1, 0]) storeOneNote.clusters).similarity →
      ∃ nearest k, k < storeOneNote.clusters.length ∧
        storeOneNote.clusters[k]? = some nearest ∧
        (findNearestCluster (some [1, 0]) storeOneNote.clusters).cluster =
          some nearest ∧
        (findNearestCluster (some [1, 0]) storeOneNote.clusters).similarity =
          cosineSimilarity [1, 0] nearest.centroid ∧
        (classifyNoteStep "n2" [1, 0] "c2" storeOneNote).clusters =
          storeOneNote.clusters.set k
            ⟨nearest.id,
             computeCentroid (embeddingsOfIds
               (upsertEmbedding ⟨"n2", [1, 0]⟩ storeOneNote)
               (nearest.noteIds ++ ["n2"])),
             nearest.noteIds ++ ["n2"]⟩)) := by
  have h1 : storeOneNote.clusters ≠ [] := by simp [storeOneNote]
  have h2 : (storeOneNote.clusters.map Cluster.id).Nodup := by
    simp [storeOneNote]
  have h3 : ∀ c ∈ storeOneNote.clusters, c.id ≠ "c2" := by
    intro c hc
    simp only [storeOneNote, List.mem_singleton] at hc
    rw [hc]
    decide
  have h4 : (storeOneNote.embeddings.map NoteEmbedding.noteId).Nodup := by
    simp [storeOneNote]
  have h5 : ∀ c ∈ storeOneNote.clusters, c.noteIds.Nodup := by
    intro c hc
    simp only [storeOneNote, List.mem_singleton] at hc
    rw [hc]
    decide
  have h6 : ∀ c ∈ storeOneNote.clusters, "n2" ∉ c.noteIds := by
    intro c hc
    simp only [storeOneNote, List.mem_singleton] at hc
    rw [hc]
    decide
  have h7 : ∀ e ∈ storeOneNote.embeddings, e.embedding.length = 2 := by
    intro e he
    simp only [storeOneNote, List.mem_singleton] at he
    rw [he]
    rfl
  have h8 : ([1, 0] : List ℝ).length = 2 := rfl
  exact ⟨⟨h1, h2, h3, h4, h5, h6, h7, h8⟩,
    classifyNote_threshold storeOneNote "n2" [1, 0] "c2" 2 h1 h2 h3 h4 h5 h6 h7 h8⟩

/-! Claim C4 — the merge check. -/

theorem checkAndMergeClusters_small (store : ClassifierStore)
    (hn : store.clusters.length < 2) : checkAndMergeClusters store = store := by
  simp only [checkAndMergeClusters]
  rw [if_pos hn]

theorem checkAndMergeClusters_noop (store : ClassifierStore)
    (hn : ¬ store.clusters.length < 2)
    (hth : ¬ MERGE_THRESHOLD ≤ (argmaxAux (pairSim store.clusters)
        ((pairIndices store.clusters.length).filter (validPair store.clusters))
        0 none).1) :
    checkAndMergeClusters store = store := by
  simp only [checkAndMergeClusters]
  rw [if_neg hn, if_neg hth]

theorem checkAndMergeClusters_merge_eq (store : ClassifierStore) (x : ℕ × ℕ)
    (hn : ¬ store.clusters.length < 2)
    (hscan : argmaxAux (pairSim store.clusters)
        ((pairIndices store.clusters.length).filter (validPair store.clusters))
        0 none = (pairSim store.clusters x, some x))
    (hth : MERGE_THRESHOLD ≤ pairSim store.clusters x) :
    checkAndMergeClusters store = { store with clusters :=
      ((store.clusters.filter
        (fun c => c.id != (getC store.clusters x.2).id)).set x.1
        (mergedCluster store x)) } := by
  simp only [checkAndMergeClusters]
  rw [if_neg hn, hscan]
  rw [if_pos (show MERGE_THRESHOLD ≤ (pairSim store.clusters x, some x).1 from hth)]
  rfl

theorem length_filter_ne_id (clusters : List Cluster)
    (hids : (clusters.map Cluster.id).Nodup) (j : ℕ) (hj : j < clusters.length) :
    (clusters.filter (fun c => c.id != clusters[j].id)).length + 1 =
      clusters.length := by
  have hperm := List.filter_append_perm
    (fun c => c.id != clusters[j].id) clusters
  have hlen := hperm.length_eq
  rw [List.length_append] at hlen
  have hfeq : clusters.filter (fun c => !(c.id != clusters[j].id)) =
      clusters.filter (fun c => c.id == clusters[j].id) := by
    refine List.filter_congr ?_
    intro c _
    simp [bne]
  have hmem : clusters[j].id ∈ clusters.map Cluster.id :=
    List.mem_map.mpr ⟨clusters[j], clusters.getElem_mem hj, rfl⟩
  have hcount : (clusters.map Cluster.id).count clusters[j].id = 1 :=
    List.count_eq_one_of_mem hids hmem
  have hcp : (clusters.filter (fun c => c.id == clusters[j].id)).length = 1 := by
    rw [← List.countP_eq_length_filter]
    have h1 : (clusters.map Cluster.id).countP (fun s => s == clusters[j].id) =
        clusters.countP (fun c => c.id == clusters[j].id) := by
      rw [List.countP_map]
      rfl
    rw [← h1]
    exact hcount
  rw [hfeq, hcp] at hlen
  omega

/-- Claim C4 — one call to the merge check performs at most one merge; a
merge happens exactly when some pair of clusters with non-empty centroids
has centroid cosine similarity at least `MERGE_THRESHOLD` (equivalently,
when the maximal pairwise similarity over such pairs reaches 0.85); and
when a merge happens, the surviving first cluster carries the
duplicate-free union of the two noteId lists with centroid recomputed as
the mean of the embeddings of that union, while the second cluster is
removed from the store. -/
theorem checkAndMergeClusters_spec (store : ClassifierStore) (d : ℕ)
    (hids : (store.clusters.map Cluster.id).Nodup)
    (hnd : ∀ c ∈ store.clusters, c.noteIds.Nodup)
    (hdisj : store.clusters.Pairwise
      (fun c1 c2 => ∀ x ∈ c1.noteIds, x ∉ c2.noteIds))
    (hkeys : (store.embeddings.map NoteEmbedding.noteId).Nodup)
    (hdim : ∀ e ∈ store.embeddings, e.embedding.length = d) :
    ((checkAndMergeClusters store).clusters.length = store.clusters.length ∨
      (checkAndMergeClusters store).clusters.length + 1 =
        store.clusters.length) ∧
    ((checkAndMergeClusters store).clusters.length + 1 =
        store.clusters.length ↔
      ∃ p : ℕ × ℕ, p.1 < p.2 ∧ p.2 < store.clusters.length ∧
        validPair store.clusters p = true ∧
        MERGE_THRESHOLD ≤ pairSim store.clusters p) ∧
    ((checkAndMergeClusters store).clusters.length + 1 =
        store.clusters.length →
      ∃ i j, i < j ∧ j < store.clusters.length ∧
        ∃ merged ∈ (checkAndMergeClusters store).clusters,
          merged.id = (getC store.clusters i).id ∧
          merged.noteIds = (getC store.clusters i).noteIds ++
            (getC store.clusters j).noteIds ∧
          merged.noteIds.Nodup ∧
          (∀ y, y ∈ merged.noteIds ↔
            y ∈ (getC store.clusters i).noteIds ∨
            y ∈ (getC store.clusters j).noteIds) ∧
          merged.centroid = computeCentroid (embeddingsOfIds store
            ((getC store.clusters i).noteIds ++
              (getC store.clusters j).noteIds)) ∧
          (∀ c ∈ (checkAndMergeClusters store).clusters,
            c.id ≠ (getC store.clusters j).id) ∧
          (checkAndMergeClusters store).clusters =
            (store.clusters.filter
              (fun c => c.id != (getC store.clusters j).id)).set i merged) := by
  by_cases hn : store.clusters.length < 2
  · rw [checkAndMergeClusters_small store hn]
    refine ⟨Or.inl rfl, ?_, ?_⟩
    · constructor
      · intro h
        omega
      · rintro ⟨p, h1, h2, -, -⟩
        omega
    · intro h
      omega
  · by_cases hth : MERGE_THRESHOLD ≤ (argmaxAux (pairSim store.clusters)
        ((pairIndices store.clusters.length).filter (validPair store.clusters))
        0 none).1
    · obtain ⟨x, hxmem, hscan⟩ := argmaxAux_reached (pairSim store.clusters)
        ((pairIndices store.clusters.length).filter (validPair store.clusters))
        0 MERGE_THRESHOLD (by norm_num [MERGE_THRESHOLD]) hth
      obtain ⟨hxpair, hxvalid⟩ := List.mem_filter.mp hxmem
      have hxpair2 : (x.1, x.2) ∈ pairIndices store.clusters.length := by
        rw [Prod.mk.eta]
        exact hxpair
      obtain ⟨hij, hjn⟩ := mem_pairIndices.mp hxpair2
      have hin : x.1 < store.clusters.length := lt_trans hij hjn
      have hthx : MERGE_THRESHOLD ≤ pairSim store.clusters x := by
        rw [hscan] at hth
        exact hth
      have hres := checkAndMergeClusters_merge_eq store x hn hscan hthx
      have hgA : getC store.clusters x.1 = store.clusters[x.1] :=
        List.getD_eq_getElem store.clusters _ hin
      have hgB : getC store.clusters x.2 = store.clusters[x.2] :=
        List.getD_eq_getElem store.clusters _ hjn
      have hAmem : getC store.clusters x.1 ∈ store.clusters := by
        rw [hgA]
        exact store.clusters.getElem_mem hin
      have hBmem : getC store.clusters x.2 ∈ store.clusters := by
        rw [hgB]
        exact store.clusters.getElem_mem hjn
      have hABne : (getC store.clusters x.1).id ≠ (getC store.clusters x.2).id := by
        rw [hgA, hgB]
        intro hc
        have hi2 : x.1 < (store.clusters.map Cluster.id).length := by
          simpa using hin
        have hj2 : x.2 < (store.clusters.map Cluster.id).length := by
          simpa using hjn
        have hmap : (store.clusters.map Cluster.id)[x.1] =
            (store.clusters.map Cluster.id)[x.2] := by
          simp only [List.getElem_map]
          exact hc
        exact absurd (hids.getElem_inj_iff.mp hmap) (Nat.ne_of_lt hij)
      have hdisjAB : ∀ y ∈ (getC store.clusters x.1).noteIds,
          y ∉ (getC store.clusters x.2).noteIds := by
        rw [hgA, hgB]
        exact List.pairwise_iff_getElem.mp hdisj x.1 x.2 hin hjn hij
      have hnodupU : ((getC store.clusters x.1).noteIds ++
          (getC store.clusters x.2).noteIds).Nodup := by
        refine (hnd _ hAmem).append (hnd _ hBmem) (List.disjoint_left.mpr hdisjAB)
      have hflen : (store.clusters.filter
          (fun c => c.id != (getC store.clusters x.2).id)).length + 1 =
          store.clusters.length := by
        rw [hgB]
        exact length_filter_ne_id store.clusters hids x.2 hjn
      have hlen' : (checkAndMergeClusters store).clusters.length + 1 =
          store.clusters.length := by
        rw [hres]
        simp only [List.length_set]
        exact hflen
      have hinflt : x.1 < (store.clusters.filter
          (fun c => c.id != (getC store.clusters x.2).id)).length := by
        omega
      refine ⟨Or.inr hlen', ⟨fun _ => ⟨x, hij, hjn, hxvalid, hthx⟩, fun _ => hlen'⟩,
        ?_⟩
      intro _
      refine ⟨x.1, x.2, hij, hjn, ?_⟩
      have hsetmem : mergedCluster store x ∈ (checkAndMergeClusters store).clusters := by
        rw [hres]
        have hget := List.getElem_set_self
          (l := store.clusters.filter
            (fun c => c.id != (getC store.clusters x.2).id))
          (i := x.1) (a := mergedCluster store x) (h := by simpa using hinflt)
        have hmem2 := List.getElem_mem
          (l := (store.clusters.filter
            (fun c => c.id != (getC store.clusters x.2).id)).set x.1
            (mergedCluster store x))
          (n := x.1) (by simpa using hinflt)
        rw [hget] at hmem2
        exact hmem2
      refine ⟨mergedCluster store x, hsetmem, rfl, rfl, hnodupU, ?_, ?_, ?_, ?_⟩
      · intro y
        simp [mergedCluster]
      · show computeCentroid _ = _
        exact centroid_filter_eq_membersOf store _ d hkeys hnodupU hdim
      · intro c hc
        rw [hres] at hc
        rcases List.mem_or_eq_of_mem_set hc with hc2 | hc2
        · have := List.of_mem_filter hc2
          simpa using this
        · rw [hc2]
          exact hABne
      · rw [hres]
    · have hres := checkAndMergeClusters_noop store hn hth
      rw [hres]
      refine ⟨Or.inl rfl, ?_, ?_⟩
      · constructor
        · intro h
          omega
        · rintro ⟨p, h1, h2, hvalid, hsim⟩
          exfalso
          have hpmem : p ∈ (pairIndices store.clusters.length).filter
              (validPair store.clusters) := by
            refine List.mem_filter.mpr ⟨?_, hvalid⟩
            have := mem_pairIndices.mpr ⟨h1, h2⟩
            rw [Prod.mk.eta] at this
            exact this
          have := argmaxAux_ge (pairSim store.clusters)
            ((pairIndices store.clusters.length).filter (validPair store.clusters))
            0 none p hpmem
          exact hth (le_trans hsim this)
      · intro h
        omega

/-- Witness for C4 at a concrete store with two singleton clusters whose
centroids coincide. -/
theorem checkAndMergeClusters_spec_witness :
    ((storeTwoClusters.clusters.map Cluster.id).Nodup ∧
     (∀ c ∈ storeTwoClusters.clusters, c.noteIds.Nodup) ∧
     storeTwoClusters.clusters.Pairwise
       (fun c1 c2 => ∀ x ∈ c1.noteIds, x ∉ c2.noteIds) ∧
     (storeTwoClusters.embeddings.map NoteEmbedding.noteId).Nodup ∧
     (∀ e ∈ storeTwoClusters.embeddings, e.embedding.length = 2)) ∧
    (((checkAndMergeClusters storeTwoClusters).clusters.length =
        storeTwoClusters.clusters.length ∨
      (checkAndMergeClusters storeTwoClusters).clusters.length + 1 =
        storeTwoClusters.clusters.length) ∧
     ((checkAndMergeClusters storeTwoClusters).clusters.length + 1 =
        storeTwoClusters.clusters.length ↔
      ∃ p : ℕ × ℕ, p.1 < p.2 ∧ p.2 < storeTwoClusters.clusters.length ∧
        validPair storeTwoClusters.clusters p = true ∧
        MERGE_THRESHOLD ≤ pairSim storeTwoClusters.clusters p) ∧
     ((checkAndMergeClusters storeTwoClusters).clusters.length + 1 =
        storeTwoClusters.clusters.length →
      ∃ i j, i < j ∧ j < storeTwoClusters.clusters.length ∧
        ∃ merged ∈ (checkAndMergeClusters storeTwoClusters).clusters,
          merged.id = (getC storeTwoClusters.clusters i).id ∧
          merged.noteIds = (getC storeTwoClusters.clusters i).noteIds ++
            (getC storeTwoClusters.clusters j).noteIds ∧
          merged.noteIds.Nodup ∧
          (∀ y, y ∈ merged.noteIds ↔
            y ∈ (getC storeTwoClusters.clusters i).noteIds ∨
            y ∈ (getC storeTwoClusters.clusters j).noteIds) ∧
          merged.centroid = computeCentroid (embeddingsOfIds storeTwoClusters
            ((getC storeTwoClusters.clusters i).noteIds ++
              (getC storeTwoClusters.clusters j).noteIds)) ∧
          (∀ c ∈ (checkAndMergeClusters storeTwoClusters).clusters,
            c.id ≠ (getC storeTwoClusters.clusters j).id) ∧
          (checkAndMergeClusters storeTwoClusters).clusters =
            (storeTwoClusters.clusters.filter
              (fun c => c.id != (getC storeTwoClusters.clusters j).id)).set i
              merged)) := by
  have h1 : (storeTwoClusters.clusters.map Cluster.id).Nodup := by
    simp [storeTwoClusters]
  have h2 : ∀ c ∈ storeTwoClusters.clusters, c.noteIds.Nodup := by
    intro c hc
    simp only [storeTwoClusters, List.mem_cons, List.mem_singleton,
      List.not_mem_nil, or_false] at hc
    rcases hc with hc | hc <;> rw [hc] <;> decide
  have h3 : storeTwoClusters.clusters.Pairwise
      (fun c1 c2 => ∀ x ∈ c1.noteIds, x ∉ c2.noteIds) := by
    simp only [storeTwoClusters]
    refine List.Pairwise.cons ?_ (List.Pairwise.cons ?_ List.Pairwise.nil)
    · intro c hc
      rw [List.mem_singleton] at hc
      rw [hc]
      intro y hy
      rw [List.mem_singleton] at hy
      rw [hy]
      decide
    · intro c hc
      simp at hc
  have h4 : (storeTwoClusters.embeddings.map NoteEmbedding.noteId).Nodup := by
    simp [storeTwoClusters]
  have h5 : ∀ e ∈ storeTwoClusters.embeddings, e.embedding.length = 2 := by
    intro e he
    simp only [storeTwoClusters, List.mem_cons, List.mem_singleton,
      List.not_mem_nil, or_false] at he
    rcases he with he | he <;> rw [he] <;> rfl
  exact ⟨⟨h1, h2, h3, h4, h5⟩,
    checkAndMergeClusters_spec storeTwoClusters 2 h1 h2 h3 h4 h5⟩

/-! Claim C5 — splitting an oversized cluster. -/

theorem nodup_key_inj {l : List NoteEmbedding}
    (hk : (l.map NoteEmbedding.noteId).Nodup) {a b : NoteEmbedding}
    (ha : a ∈ l) (hb : b ∈ l) (hab : a.noteId = b.noteId) : a = b := by
  obtain ⟨i, hi, ha2⟩ := List.mem_iff_getElem.mp ha
  obtain ⟨j, hj, hb2⟩ := List.mem_iff_getElem.mp hb
  have hi2 : i < (l.map NoteEmbedding.noteId).length := by simpa using hi
  have hj2 : j < (l.map NoteEmbedding.noteId).length := by simpa using hj
  have hmap : (l.map NoteEmbedding.noteId)[i] = (l.map NoteEmbedding.noteId)[j] := by
    simp only [List.getElem_map]
    rw [ha2, hb2, hab]
  have hij : i = j := hk.getElem_inj_iff.mp hmap
  rw [← ha2, ← hb2]
  subst hij
  rfl

theorem membersOf_map_noteId (store : ClassifierStore) (l : List NoteEmbedding)
    (hk : (store.embeddings.map NoteEmbedding.noteId).Nodup)
    (hsub : ∀ e ∈ l, e ∈ store.embeddings) :
    membersOf store (l.map (fun e => e.noteId)) = l := by
  induction l with
  | nil => rfl
  | cons e t ih =>
    show (membersOf store (e.noteId :: t.map (fun e => e.noteId))) = e :: t
    unfold membersOf
    rw [List.filterMap_cons]
    rw [find?_key_eq hk (hsub e (List.mem_cons_self e t))]
    show e :: membersOf store (t.map (fun e => e.noteId)) = e :: t
    rw [ih (fun x hx => hsub x (List.mem_cons_of_mem e hx))]

theorem map_noteId_membersOf (store : ClassifierStore) (ids : List String)
    (htot : ∀ id ∈ ids, ∃ e ∈ store.embeddings, e.noteId = id) :
    (membersOf store ids).map (fun e => e.noteId) = ids := by
  induction ids with
  | nil => rfl
  | cons id t ih =>
    obtain ⟨e, he, hid⟩ := htot id (List.mem_cons_self id t)
    have hfind : (store.embeddings.find? (fun x => x.noteId == id)).isSome := by
      rw [List.find?_isSome]
      exact ⟨e, he, by simp [hid]⟩
    obtain ⟨e2, he2⟩ := Option.isSome_iff_exists.mp hfind
    have he2id : e2.noteId = id := by
      have := List.find?_some he2
      simpa using this
    show (membersOf store (id :: t)).map (fun e => e.noteId) = id :: t
    unfold membersOf
    rw [List.filterMap_cons, he2]
    show (e2 :: membersOf store t).map (fun e => e.noteId) = id :: t
    rw [List.map_cons, he2id, ih (fun x hx => htot x (List.mem_cons_of_mem id hx))]

theorem upsertCluster_embeddings (c : Cluster) (store : ClassifierStore) :
    (upsertCluster c store).embeddings = store.embeddings := by
  unfold upsertCluster
  rcases h : store.clusters.findIdx? (fun x => x.id == c.id) with _ | i <;> rw [h]

/-- Claim C5 — for a cluster whose members all have stored embeddings:
with fewer than 4 members the split is a no-op; with at least 4 members
(and at least one pair of not-perfectly-similar members, so that the
strict-improvement seed scan finds a seed pair) the cluster is split along
a maximal-distance seed pair: every member joins seed 1 exactly when it is
at least as cosine-similar to seed 1 as to seed 2 (ties to the first
seed), the two resulting noteId lists are disjoint and together are a
permutation of the original noteIds (no duplicates, no omissions), each
resulting cluster stores the mean of the embeddings of exactly its own
members, the first group overwrites the original cluster in the store and
the second becomes a new cluster. -/
theorem splitCluster_spec (store : ClassifierStore) (cluster : Cluster)
    (newId : String) (d : ℕ)
    (hnd : cluster.noteIds.Nodup)
    (hkeys : (store.embeddings.map NoteEmbedding.noteId).Nodup)
    (htot : ∀ id ∈ cluster.noteIds, ∃ e ∈ store.embeddings, e.noteId = id)
    (hdim : ∀ e ∈ store.embeddings, e.embedding.length = d)
    (hmem : cluster ∈ store.clusters)
    (hids : (store.clusters.map Cluster.id).Nodup)
    (hnew : ∀ c ∈ store.clusters, c.id ≠ newId) :
    (clusterEmbeddings store cluster).length = cluster.noteIds.length ∧
    ((clusterEmbeddings store cluster).length < 4 →
      splitCluster cluster newId store = store) ∧
    (4 ≤ (clusterEmbeddings store cluster).length →
      (∃ q ∈ pairsOf (clusterEmbeddings store cluster),
        cosineSimilarity q.1.embedding q.2.embedding < 1) →
      ∃ p1 p2, p1 ∈ clusterEmbeddings store cluster ∧
        p2 ∈ clusterEmbeddings store cluster ∧
        (∀ q ∈ pairsOf (clusterEmbeddings store cluster),
          1 - cosineSimilarity q.1.embedding q.2.embedding ≤
            1 - cosineSimilarity p1.embedding p2.embedding) ∧
        (∀ e ∈ clusterEmbeddings store cluster,
          (e.noteId ∈ (((clusterEmbeddings store cluster).filter (fun e =>
              decide (cosineSimilarity e.embedding p2.embedding ≤
                cosineSimilarity e.embedding p1.embedding))).map
              (fun e => e.noteId)) ↔
            cosineSimilarity e.embedding p2.embedding ≤
              cosineSimilarity e.embedding p1.embedding)) ∧
        (∀ e ∈ clusterEmbeddings store cluster,
          (e.noteId ∈ (((clusterEmbeddings store cluster).filter (fun e =>
              decide (cosineSimilarity e.embedding p1.embedding <
                cosineSimilarity e.embedding p2.embedding))).map
              (fun e => e.noteId)) ↔
            cosineSimilarity e.embedding p1.embedding <
              cosineSimilarity e.embedding p2.embedding)) ∧
        List.Perm
          ((((clusterEmbeddings store cluster).filter (fun e =>
              decide (cosineSimilarity e.embedding p2.embedding ≤
                cosineSimilarity e.embedding p1.embedding))).map
              (fun e => e.noteId)) ++
            (((clusterEmbeddings store cluster).filter (fun e =>
              decide (cosineSimilarity e.embedding p1.embedding <
                cosineSimilarity e.embedding p2.embedding))).map
              (fun e => e.noteId)))
          cluster.noteIds ∧
        ((((clusterEmbeddings store cluster).filter (fun e =>
            decide (cosineSimilarity e.embedding p2.embedding ≤
              cosineSimilarity e.embedding p1.embedding))).map
            (fun e => e.noteId)) ++
          (((clusterEmbeddings store cluster).filter (fun e =>
            decide (cosineSimilarity e.embedding p1.embedding <
              cosineSimilarity e.embedding p2.embedding))).map
            (fun e => e.noteId))).Nodup ∧
        (∀ y, ¬(y ∈ (((clusterEmbeddings store cluster).filter (fun e =>
              decide (cosineSimilarity e.embedding p2.embedding ≤
                cosineSimilarity e.embedding p1.embedding))).map
              (fun e => e.noteId)) ∧
            y ∈ (((clusterEmbeddings store cluster).filter (fun e =>
              decide (cosineSimilarity e.embedding p1.embedding <
                cosineSimilarity e.embedding p2.embedding))).map
              (fun e => e.noteId)))) ∧
        ∃ k, k < store.clusters.length ∧ store.clusters[k]? = some cluster ∧
          (splitCluster cluster newId store).clusters =
            (store.clusters.set k
              ⟨cluster.id,
               computeCentroid (embeddingsOfIds store
                 (((clusterEmbeddings store cluster).filter (fun e =>
                   decide (cosineSimilarity e.embedding p2.embedding ≤
                     cosineSimilarity e.embedding p1.embedding))).map
                   (fun e => e.noteId))),
               ((clusterEmbeddings store cluster).filter (fun e =>
                 decide (cosineSimilarity e.embedding p2.embedding ≤
                   cosineSimilarity e.embedding p1.embedding))).map
                 (fun e => e.noteId)⟩) ++
            [⟨newId,
              computeCentroid (embeddingsOfIds store
                (((clusterEmbeddings store cluster).filter (fun e =>
                  decide (cosineSimilarity e.embedding p1.embedding <
                    cosineSimilarity e.embedding p2.embedding))).map
                  (fun e => e.noteId))),
              ((clusterEmbeddings store cluster).filter (fun e =>
                decide (cosineSimilarity e.embedding p1.embedding <
                  cosineSimilarity e.embedding p2.embedding))).map
                (fun e => e.noteId)⟩]) := by
  have hsubce : ∀ y ∈ clusterEmbeddings store cluster, y ∈ store.embeddings := by
    intro y hy
    exact List.mem_of_mem_filter hy
  have hperm0 : List.Perm (clusterEmbeddings store cluster)
      (membersOf store cluster.noteIds) :=
    filter_perm_membersOf store cluster.noteIds hkeys hnd
  have hmapids : (membersOf store cluster.noteIds).map (fun e => e.noteId) =
      cluster.noteIds := map_noteId_membersOf store cluster.noteIds htot
  have hlen0 : (clusterEmbeddings store cluster).length = cluster.noteIds.length := by
    have hl2 := congrArg List.length hmapids
    rw [List.length_map] at hl2
    rw [hperm0.length_eq]
    exact hl2
  refine ⟨hlen0, ?_, ?_⟩
  · intro hlt
    unfold splitCluster
    rw [if_pos hlt]
  · intro h4 hpos
    obtain ⟨q, hq, hqlt⟩ := hpos
    have hscore : (0 : ℝ) < 1 - cosineSimilarity q.1.embedding q.2.embedding := by
      linarith
    have hge := argmaxAux_ge
      (fun q => 1 - cosineSimilarity q.1.embedding q.2.embedding)
      (pairsOf (clusterEmbeddings store cluster)) 0 none q hq
    obtain ⟨x, hx, hscan⟩ := argmaxAux_reached
      (fun q => 1 - cosineSimilarity q.1.embedding q.2.embedding)
      (pairsOf (clusterEmbeddings store cluster)) 0
      (1 - cosineSimilarity q.1.embedding q.2.embedding) hscore hge
    obtain ⟨hx1, hx2⟩ := mem_pairsOf hx
    have hmax : ∀ p ∈ pairsOf (clusterEmbeddings store cluster),
        1 - cosineSimilarity p.1.embedding p.2.embedding ≤
        1 - cosineSimilarity x.1.embedding x.2.embedding := by
      intro p hp
      have := argmaxAux_ge
        (fun q => 1 - cosineSimilarity q.1.embedding q.2.embedding)
        (pairsOf (clusterEmbeddings store cluster)) 0 none p hp
      rw [hscan] at this
      exact this
    have hg1mem : ∀ e ∈ clusterEmbeddings store cluster,
        (e.noteId ∈ (((clusterEmbeddings store cluster).filter (fun y =>
            decide (cosineSimilarity y.embedding x.2.embedding ≤
              cosineSimilarity y.embedding x.1.embedding))).map
            (fun y => y.noteId)) ↔
          cosineSimilarity e.embedding x.2.embedding ≤
            cosineSimilarity e.embedding x.1.embedding) := by
      intro e he
      constructor
      · intro hin
        obtain ⟨e2, he2, heq⟩ := List.mem_map.mp hin
        obtain ⟨he2ce, hpred⟩ := List.mem_filter.mp he2
        have : e2 = e := nodup_key_inj hkeys (hsubce e2 he2ce) (hsubce e he) heq
        subst this
        simpa using hpred
      · intro hpred
        exact List.mem_map.mpr ⟨e, List.mem_filter.mpr ⟨he, by simpa using hpred⟩,
          rfl⟩
    have hg2mem : ∀ e ∈ clusterEmbeddings store cluster,
        (e.noteId ∈ (((clusterEmbeddings store cluster).filter (fun y =>
            decide (cosineSimilarity y.embedding x.1.embedding <
              cosineSimilarity y.embedding x.2.embedding))).map
            (fun y => y.noteId)) ↔
          cosineSimilarity e.embedding x.1.embedding <
            cosineSimilarity e.embedding x.2.embedding) := by
      intro e he
      constructor
      · intro hin
        obtain ⟨e2, he2, heq⟩ := List.mem_map.mp hin
        obtain ⟨he2ce, hpred⟩ := List.mem_filter.mp he2
        have : e2 = e := nodup_key_inj hkeys (hsubce e2 he2ce) (hsubce e he) heq
        subst this
        simpa using hpred
      · intro hpred
        exact List.mem_map.mpr ⟨e, List.mem_filter.mpr ⟨he, by simpa using hpred⟩,
          rfl⟩
    have hfneg : (clusterEmbeddings store cluster).filter (fun y =>
        !(decide (cosineSimilarity y.embedding x.2.embedding ≤
          cosineSimilarity y.embedding x.1.embedding))) =
        (clusterEmbeddings store cluster).filter (fun y =>
        decide (cosineSimilarity y.embedding x.1.embedding <
          cosineSimilarity y.embedding x.2.embedding)) := by
      refine List.filter_congr ?_
      intro y _
      rw [← decide_not]
      exact decide_eq_decide.mpr not_le
    have hpermG : List.Perm
        (((clusterEmbeddings store cluster).filter (fun y =>
          decide (cosineSimilarity y.embedding x.2.embedding ≤
            cosineSimilarity y.embedding x.1.embedding))) ++
          ((clusterEmbeddings store cluster).filter (fun y =>
          decide (cosineSimilarity y.embedding x.1.embedding <
            cosineSimilarity y.embedding x.2.embedding))))
        (clusterEmbeddings store cluster) := by
      rw [← hfneg]
      exact List.filter_append_perm _ _
    have hpermIds : List.Perm
        ((((clusterEmbeddings store cluster).filter (fun y =>
          decide (cosineSimilarity y.embedding x.2.embedding ≤
            cosineSimilarity y.embedding x.1.embedding))).map
            (fun y => y.noteId)) ++
          (((clusterEmbeddings store cluster).filter (fun y =>
          decide (cosineSimilarity y.embedding x.1.embedding <
            cosineSimilarity y.embedding x.2.embedding))).map
            (fun y => y.noteId)))
        cluster.noteIds := by
      rw [← List.map_append]
      have h1 := hpermG.map (fun y => y.noteId)
      have h2 := hperm0.map (fun y => y.noteId)
      rw [hmapids] at h2
      exact h1.trans h2
    have hnodupIds := (hpermIds.nodup_iff).mpr hnd
    refine ⟨x.1, x.2, hx1, hx2, hmax, hg1mem, hg2mem, hpermIds, hnodupIds, ?_, ?_⟩
    · intro y hy
      obtain ⟨hy1, hy2⟩ := hy
      have := List.disjoint_of_nodup_append hnodupIds
      exact this hy1 hy2
    · obtain ⟨k, hk, hck⟩ := List.mem_iff_getElem.mp hmem
      refine ⟨k, hk, ?_, ?_⟩
      · rw [List.getElem?_eq_getElem hk, hck]
      · have hG1 : embeddingsOfIds store
            (((clusterEmbeddings store cluster).filter (fun y =>
              decide (cosineSimilarity y.embedding x.2.embedding ≤
                cosineSimilarity y.embedding x.1.embedding))).map
              (fun y => y.noteId)) =
            ((clusterEmbeddings store cluster).filter (fun y =>
              decide (cosineSimilarity y.embedding x.2.embedding ≤
                cosineSimilarity y.embedding x.1.embedding))).map
              (fun y => y.embedding) := by
          unfold embeddingsOfIds
          rw [membersOf_map_noteId store _ hkeys
            (fun e he => hsubce e (List.mem_of_mem_filter he))]
        have hG2 : embeddingsOfIds store
            (((clusterEmbeddings store cluster).filter (fun y =>
              decide (cosineSimilarity y.embedding x.1.embedding <
                cosineSimilarity y.embedding x.2.embedding))).map
              (fun y => y.noteId)) =
            ((clusterEmbeddings store cluster).filter (fun y =>
              decide (cosineSimilarity y.embedding x.1.embedding <
                cosineSimilarity y.embedding x.2.embedding))).map
              (fun y => y.embedding) := by
          unfold embeddingsOfIds
          rw [membersOf_map_noteId store _ hkeys
            (fun e he => hsubce e (List.mem_of_mem_filter he))]
        rw [hG1, hG2]
        have hsplitres : splitCluster cluster newId store =
            upsertCluster
              ⟨newId,
               computeCentroid
                 (((clusterEmbeddings store cluster).filter (fun y =>
                   decide (cosineSimilarity y.embedding x.1.embedding <
                     cosineSimilarity y.embedding x.2.embedding))).map
                   (fun y => y.embedding)),
               ((clusterEmbeddings store cluster).filter (fun y =>
                 decide (cosineSimilarity y.embedding x.1.embedding <
                   cosineSimilarity y.embedding x.2.embedding))).map
                 (fun y => y.noteId)⟩
              (upsertCluster
                { cluster with
                  noteIds := ((clusterEmbeddings store cluster).filter (fun y =>
                    decide (cosineSimilarity y.embedding x.2.embedding ≤
                      cosineSimilarity y.embedding x.1.embedding))).map
                    (fun y => y.noteId)
                  centroid := computeCentroid
                    (((clusterEmbeddings store cluster).filter (fun y =>
                      decide (cosineSimilarity y.embedding x.2.embedding ≤
                        cosineSimilarity y.embedding x.1.embedding))).map
                      (fun y => y.embedding)) }
                store) := by
          simp only [splitCluster]
          rw [if_neg (by omega), hscan]
        have hrep := upsertCluster_replace
          { cluster with
            noteIds := ((clusterEmbeddings store cluster).filter (fun y =>
              decide (cosineSimilarity y.embedding x.2.embedding ≤
                cosineSimilarity y.embedding x.1.embedding))).map
              (fun y => y.noteId)
            centroid := computeCentroid
              (((clusterEmbeddings store cluster).filter (fun y =>
                decide (cosineSimilarity y.embedding x.2.embedding ≤
                  cosineSimilarity y.embedding x.1.embedding))).map
                (fun y => y.embedding)) }
          cluster store hids k hk hck rfl
        have hpush : ∀ z ∈ (upsertCluster
            { cluster with
              noteIds := ((clusterEmbeddings store cluster).filter (fun y =>
                decide (cosineSimilarity y.embedding x.2.embedding ≤
                  cosineSimilarity y.embedding x.1.embedding))).map
                (fun y => y.noteId)
              centroid := computeCentroid
                (((clusterEmbeddings store cluster).filter (fun y =>
                  decide (cosineSimilarity y.embedding x.2.embedding ≤
                    cosineSimilarity y.embedding x.1.embedding))).map
                  (fun y => y.embedding)) }
            store).clusters, z.id ≠ newId := by
          intro z hz
          rw [hrep] at hz
          rcases List.mem_or_eq_of_mem_set hz with hz2 | hz2
          · exact hnew z hz2
          · rw [hz2]
            exact hnew cluster hmem
        rw [hsplitres, upsertCluster_push _ _ hpush, hrep]

/-- Witness for C5 at a concrete store: one cluster of four members whose
embeddings form two orthogonal pairs, all hypotheses discharged. -/
theorem splitCluster_spec_witness :
    (clusterFour.noteIds.Nodup ∧
     (storeFourMembers.embeddings.map NoteEmbedding.noteId).Nodup ∧
     (∀ id ∈ clusterFour.noteIds,
       ∃ e ∈ storeFourMembers.embeddings, e.noteId = id) ∧
     (∀ e ∈ storeFourMembers.embeddings, e.embedding.length = 2) ∧
     clusterFour ∈ storeFourMembers.clusters ∧
     (storeFourMembers.clusters.map Cluster.id).Nodup ∧
     (∀ c ∈ storeFourMembers.clusters, c.id ≠ "c2")) ∧
    (clusterEmbeddings storeFourMembers clusterFour).length =
      clusterFour.noteIds.length := by
  have h1 : clusterFour.noteIds.Nodup := by decide
  have h2 : (storeFourMembers.embeddings.map NoteEmbedding.noteId).Nodup := by
    decide
  have h3 : ∀ id ∈ clusterFour.noteIds,
      ∃ e ∈ storeFourMembers.embeddings, e.noteId = id := by decide
  have h4 : ∀ e ∈ storeFourMembers.embeddings, e.embedding.length = 2 := by
    decide
  have h5 : clusterFour ∈ storeFourMembers.clusters := by
    simp [storeFourMembers]
  have h6 : (storeFourMembers.clusters.map Cluster.id).Nodup := by decide
  have h7 : ∀ c ∈ storeFourMembers.clusters, c.id ≠ "c2" := by decide
  exact ⟨⟨h1, h2, h3, h4, h5, h6, h7⟩,
    (splitCluster_spec storeFourMembers clusterFour "c2" 2
      h1 h2 h3 h4 h5 h6 h7).1⟩

/-- Witness for the amended C3 at a concrete fresh run of five notes. -/
theorem processedNotes_monotone_spec_witness :
    List.Chain' (fun a b => a.processedNotes ≤ b.processedNotes)
      (startClassificationTask notes5 procOk ⟨createInitialState, []⟩).2.2 ∧
    (({ createInitialState with
        status := BStatus.running
        totalNotes := 5
        totalBatches := 1 } : TaskState ℕ) ∈
      (startClassificationTask notes5 procOk ⟨createInitialState, []⟩).2.2 ∧
    (({ createInitialState with
        status := BStatus.running
        totalNotes := 5
        totalBatches := 1 } : TaskState ℕ).processedNotes =
        batchSizesBelow (createBatches (notes5.filter validNote) CONFIG_BATCH_SIZE)
          ({ createInitialState with
              status := BStatus.running
              totalNotes := 5
              totalBatches := 1 } : TaskState ℕ).currentBatch ∨
      ({ createInitialState with
        status := BStatus.running
        totalNotes := 5
        totalBatches := 1 } : TaskState ℕ).processedNotes =
        batchSizesBelow (createBatches (notes5.filter validNote) CONFIG_BATCH_SIZE)
          (({ createInitialState with
              status := BStatus.running
              totalNotes := 5
              totalBatches := 1 } : TaskState ℕ).currentBatch + 1))) := by
  have hmem : ({ createInitialState with
      status := BStatus.running
      totalNotes := 5
      totalBatches := 1 } : TaskState ℕ) ∈
      (startClassificationTask notes5 procOk ⟨createInitialState, []⟩).2.2 := by
    decide
  exact ⟨(processedNotes_monotone_spec notes5 procOk).1, hmem,
    (processedNotes_monotone_spec notes5 procOk).2 _ hmem⟩

end Jiwo
